import Mathlib

/-!
Raytracer: bounding-box slab test, nearest-hit search, shadow test, Phong shading,
mesh loader.

A shallow embedding of `BoundingBox.h`, `Scene.h` and `Mesh.h`.  Floating-point values are
read as elements of an arbitrary linearly ordered field `K` (the rationals for
evaluation, the reals for the statements "over the reals").
-/

namespace raytracer

variable {K : Type} [LinearOrderedField K]

/-! ## Data types -/

/-- Modelled from the spec: `DataTypes.h` is not among the sources.  A `Vec3` is a
vector of three scalars, read through `operator[]` with an axis index 0, 1 or 2. -/
structure Vec3 (K : Type) where
  x : K
  y : K
  z : K

/-- The component `v[i]`. -/
def Vec3.get (v : Vec3 K) (i : Fin 3) : K :=
  match i with
  | 0 => v.x
  | 1 => v.y
  | 2 => v.z

/-- Modelled from the spec: `Ray.h` is not among the sources.  A ray is an origin and a
direction (section 3), read through `getOrigin()` and `getDirection()`. -/
structure Ray (K : Type) where
  origin : Vec3 K
  direction : Vec3 K

/-- The value of a `float` variable that may hold an infinity: `tMin` starts at
`-DBL_MAX` and `tMax` at `DBL_MAX`, which narrow to the two float infinities. -/
inductive EFloat (K : Type) where
  | negInf : EFloat K
  | fin : K → EFloat K
  | posInf : EFloat K

/-- The comparison `a < b` on floats that may be infinite. -/
def EFloat.lt (a b : EFloat K) : Bool :=
  match a, b with
  | .negInf, .negInf => false
  | .negInf, _ => true
  | .fin _, .negInf => false
  | .fin u, .fin v => decide (u < v)
  | .fin _, .posInf => true
  | .posInf, _ => false

/-- The class `BoundingBox`: its two corner fields. -/
structure BoundingBox (K : Type) where
  max_ : Vec3 K
  min_ : Vec3 K

/-- The body of the `for` loop of `BoundingBox::hasIntersect`, run for the axes still to
visit, from the running interval `tMin`, `tMax`.  A `return false` inside the loop ends
the run; running out of axes is the `return true` after the loop. -/
def BoundingBox.hasIntersectLoop (b : BoundingBox K) (ray : Ray K) :
    List (Fin 3) → EFloat K → EFloat K → Bool
  | [], _, _ => true
  | i :: rest, tMin, tMax =>
    if |ray.direction.get i| < 1 / 1000 then
      if ray.origin.get i < b.min_.get i ∨ ray.origin.get i > b.max_.get i then
        false
      else
        b.hasIntersectLoop ray rest tMin tMax
    else
      let t0 := min ((b.min_.get i - ray.origin.get i) / ray.direction.get i)
        ((b.max_.get i - ray.origin.get i) / ray.direction.get i)
      let t1 := max ((b.min_.get i - ray.origin.get i) / ray.direction.get i)
        ((b.max_.get i - ray.origin.get i) / ray.direction.get i)
      let t0' := if t0 > t1 then t1 else t0
      let t1' := if t0 > t1 then t0 else t1
      let tMin' := if tMin.lt (.fin t0') then .fin t0' else tMin
      let tMax' := if (EFloat.fin t1').lt tMax then .fin t1' else tMax
      if tMax'.lt tMin' ∨ tMax'.lt (.fin 0) then
        false
      else
        b.hasIntersectLoop ray rest tMin' tMax'

/-- The method `BoundingBox::hasIntersect`: the loop over the axes 0, 1, 2 from the
interval `(-inf, +inf)`. -/
def BoundingBox.hasIntersect (b : BoundingBox K) (ray : Ray K) : Bool :=
  b.hasIntersectLoop ray [0, 1, 2] .negInf .posInf

/-- The direction component the slab test works with: a component inside the epsilon
band `|d| < 0.001` is handled by the parallel branch, as if it were zero. -/
def snapDirection (d : K) : K :=
  if |d| < 1 / 1000 then 0 else d

/-- The float `t` is not below the lower end `lo` of a running interval. -/
def EFloat.lowerOK (lo : EFloat K) (t : K) : Prop :=
  (EFloat.fin t).lt lo = false

/-- The float `t` is not above the upper end `hi` of a running interval. -/
def EFloat.upperOK (hi : EFloat K) (t : K) : Prop :=
  hi.lt (.fin t) = false

/-- The loop of `BoundingBox::hasIntersect` once more, now returning next to the result
the divisors of the divisions the run performs, in order: the four quotients by
`ray.getDirection()[i]` in the `fmin` and `fmax` calls of an axis that takes the `else`
branch. -/
def BoundingBox.hasIntersectTraced (b : BoundingBox K) (ray : Ray K) :
    List (Fin 3) → EFloat K → EFloat K → Bool × List K
  | [], _, _ => (true, [])
  | i :: rest, tMin, tMax =>
    if |ray.direction.get i| < 1 / 1000 then
      if ray.origin.get i < b.min_.get i ∨ ray.origin.get i > b.max_.get i then
        (false, [])
      else
        b.hasIntersectTraced ray rest tMin tMax
    else
      let divisors := [ray.direction.get i, ray.direction.get i, ray.direction.get i,
        ray.direction.get i]
      let t0 := min ((b.min_.get i - ray.origin.get i) / ray.direction.get i)
        ((b.max_.get i - ray.origin.get i) / ray.direction.get i)
      let t1 := max ((b.min_.get i - ray.origin.get i) / ray.direction.get i)
        ((b.max_.get i - ray.origin.get i) / ray.direction.get i)
      let t0' := if t0 > t1 then t1 else t0
      let t1' := if t0 > t1 then t0 else t1
      let tMin' := if tMin.lt (.fin t0') then .fin t0' else tMin
      let tMax' := if (EFloat.fin t1').lt tMax then .fin t1' else tMax
      if tMax'.lt tMin' ∨ tMax'.lt (.fin 0) then
        (false, divisors)
      else
        ((b.hasIntersectTraced ray rest tMin' tMax').1,
          divisors ++ (b.hasIntersectTraced ray rest tMin' tMax').2)

/-! ## Vectors, colours and the collaborators of the scene -/

/-- The dot product `a.dot(b)`. -/
def Vec3.dot (a b : Vec3 K) : K :=
  a.x * b.x + a.y * b.y + a.z * b.z

/-- The difference `a - b`. -/
def Vec3.sub (a b : Vec3 K) : Vec3 K :=
  ⟨a.x - b.x, a.y - b.y, a.z - b.z⟩

/-- The sum `a + b`. -/
def Vec3.add (a b : Vec3 K) : Vec3 K :=
  ⟨a.x + b.x, a.y + b.y, a.z + b.z⟩

/-- The product `s * v` of a scalar and a vector. -/
def Vec3.smul (s : K) (v : Vec3 K) : Vec3 K :=
  ⟨s * v.x, s * v.y, s * v.z⟩

/-- Modelled from the spec: `Ray::compute` is not among the sources.  The point at
parametric distance `t` is `origin + t * direction` (glossary). -/
def Ray.compute (ray : Ray K) (t : K) : Vec3 K :=
  ray.origin.add (Vec3.smul t ray.direction)

/-- The operations on floats and vectors that `Scene.h` calls and that are defined outside
the sources (`norm` and `normalize` of the vector type, `pow` of the C library): they are
parameters of the shading functions. -/
structure FloatOps (K : Type) where
  norm : Vec3 K → K
  normalize : Vec3 K → Vec3 K
  pow : K → K → K

/-- Modelled from the spec: `Colour` is declared outside the sources.  A colour has three
integer channels in the range of an unsigned char (section 6). -/
structure Colour where
  c0 : Nat
  c1 : Nat
  c2 : Nat

/-- The channel `colour[i]`. -/
def Colour.get (c : Colour) (i : Fin 3) : Nat :=
  match i with
  | 0 => c.c0
  | 1 => c.c1
  | 2 => c.c2

/-- Modelled from the spec: `white()` is declared outside the sources; it is the fixed
background colour (section 4.6), all channels at 255. -/
def white : Colour :=
  ⟨255, 255, 255⟩

/-- Modelled from the spec: `Material` is declared outside the sources.  It holds the three
colours, the three reflectance coefficients and the specular exponent (section 3). -/
structure Material (K : Type) where
  ka : K
  kd : K
  ks : K
  ambientColor : Colour
  diffuseColor : Colour
  specularColor : Colour
  specularExp : K

/-- Modelled from the spec: `Object.h` is not among the sources.  A primitive answers
`hasIntersect(ray) -> (hit, distance)`, `getNormal(point)` and `getMaterial()`
(section 4.2); the distance is the value left in the out-parameter `dist`.  The callers
test `dist` only together with `&& hasIntersect`, so the value left on a miss decides
nothing. -/
structure Object (K : Type) where
  hasIntersect : Ray K → Bool × K
  getNormal : Vec3 K → Vec3 K
  getMaterial : Material K

/-- Modelled from the spec: `LightSource` is declared outside the sources.  A light answers
`computeLightVector(point)`, the vector from the point to the light (section 6). -/
structure LightSource (K : Type) where
  computeLightVector : Vec3 K → Vec3 K

/-- Modelled from the spec: `Camera.h` is not among the sources; the camera turns a pixel
position into the primary ray. -/
structure Camera (K : Type) where
  generateRay : Vec3 K → Ray K

/-- Modelled from the spec: `ImagePlane.h` is not among the sources; the image plane turns
a pixel (column, row) into a position. -/
structure ImagePlane (K : Type) where
  generatePixelPos : Nat → Nat → Vec3 K

/-- Modelled from the spec: `Image.h` is not among the sources.  The pixel buffer has a
number of rows and columns and is read and written by (row, column) (section 6). -/
structure Image where
  rows : Nat
  cols : Nat
  data : Nat → Nat → Colour

/-- The assignment `image(row, col) = colour`. -/
def Image.set (img : Image) (row col : Nat) (colour : Colour) : Image :=
  { img with data := fun r c => if r = row ∧ c = col then colour else img.data r c }

/-- The fields of the class `Scene`. -/
structure Scene (K : Type) where
  image_ : Image
  objects_ : List (Object K)
  lights_ : List (LightSource K)
  camera_ : Camera K
  imagePlane_ : ImagePlane K

/-- The macro `MAX(a,b)`, which expands to `(a<b)?b:a`. -/
def MAX (a b : K) : K :=
  if a < b then b else a

/-- The integer part of a float: truncation toward zero. -/
def truncToInt [FloorRing K] (x : K) : Int :=
  if 0 ≤ x then ⌊x⌋ else ⌈x⌉

/-- The conversion of a float to the 32-bit `int` at the call `clamp(float)`: truncation
toward zero when the truncated value is a value of `int`.  For any other float C++ defines
no result; the embedding takes `INT_MIN`, which the x86-64 conversion instruction yields. -/
def floatToInt [FloorRing K] (x : K) : Int :=
  if -2147483648 ≤ truncToInt x ∧ truncToInt x ≤ 2147483647 then truncToInt x
  else -2147483648

/-- The conversion of an `int` to `uchar` at `return color`. -/
def intToUchar (color : Int) : Nat :=
  (color % 256).toNat

/-- The value `std::numeric_limits<float>::max()`. -/
def FLT_MAX : K :=
  (2 ^ 24 - 1) * 2 ^ 104

/-! ## The methods of `Scene` -/

/-- The method `Scene::clamp`. -/
def Scene.clamp (color : Int) : Nat :=
  if color < 0 then 0
  else if color ≥ 255 then 255
  else intToUchar color

/-- The loop of `Scene::hasShadow` over the primitives still to visit: the `break` with
`hasShadow = true` ends it with true, running out of primitives leaves false. -/
def Scene.hasShadowLoop (ray : Ray K) (lightDirLength : K) : List (Object K) → Bool
  | [] => false
  | o :: rest =>
    let r := o.hasIntersect ray
    let hasIntersect := r.1
    let dist := r.2
    if dist > 1 / 10000 ∧ dist < lightDirLength ∧ hasIntersect = true then
      true
    else
      Scene.hasShadowLoop ray lightDirLength rest

/-- The method `Scene::hasShadow`. -/
def Scene.hasShadow (sc : Scene K) (ray : Ray K) (lightDirLength : K) : Bool :=
  Scene.hasShadowLoop ray lightDirLength sc.objects_

/-- The loop of `Scene::findClosestObject` over the primitives still to visit, from the
current `closestObj` and bound `t`; it returns the final `closestObj` and the final `t`. -/
def Scene.findClosestObjectLoop (ray : Ray K) :
    List (Object K) → Option (Object K) → K → Option (Object K) × K
  | [], closestObj, t => (closestObj, t)
  | o :: rest, closestObj, t =>
    let r := o.hasIntersect ray
    let hasIntersect := r.1
    let dist := r.2
    if dist > 0 ∧ dist < t ∧ hasIntersect = true then
      Scene.findClosestObjectLoop ray rest (some o) dist
    else
      Scene.findClosestObjectLoop ray rest closestObj t

/-- The method `Scene::findClosestObject`: the returned pointer (`none` for `nullptr`) and
the value left in the in/out parameter `t`. -/
def Scene.findClosestObject (sc : Scene K) (ray : Ray K) (t : K) : Option (Object K) × K :=
  Scene.findClosestObjectLoop ray sc.objects_ none t

/-- The body of the loop over the lights in `Scene::phong`.  The state is the local
`normal`, which is normalised in place on every pass, and the accumulator
`diffuseAndSpecColour`. -/
def Scene.phongStep (ops : FloatOps K) (sc : Scene K) (ray : Ray K) (m : Material K)
    (intersection : Vec3 K) (st : Vec3 K × Vec3 K) (light : LightSource K) : Vec3 K × Vec3 K :=
  let lightVector := light.computeLightVector intersection
  let viewer := ray.origin.sub intersection
  let lightDirLength := ops.norm lightVector
  let lightVector := ops.normalize lightVector
  let normal := ops.normalize st.1
  let viewer := ops.normalize viewer
  let lightRay : Ray K := ⟨intersection, lightVector⟩
  let terms : K × K :=
    if sc.hasShadow lightRay lightDirLength = false then
      let diffuseTerm := MAX (lightVector.dot normal) 0
      let relfectedLight := ops.normalize
        ((Vec3.smul (2 * lightVector.dot normal) normal).sub lightVector)
      (diffuseTerm, ops.pow (MAX (relfectedLight.dot viewer) 0) m.specularExp)
    else
      (0, 0)
  let diffuseTerm := terms.1
  let specularTerm := terms.2
  let acc := st.2
  (normal,
    ⟨acc.x + (m.kd * (m.diffuseColor.get 0 : K) * diffuseTerm
        + m.ks * (m.specularColor.get 0 : K) * specularTerm),
     acc.y + (m.kd * (m.diffuseColor.get 1 : K) * diffuseTerm
        + m.ks * (m.specularColor.get 1 : K) * specularTerm),
     acc.z + (m.kd * (m.diffuseColor.get 2 : K) * diffuseTerm
        + m.ks * (m.specularColor.get 2 : K) * specularTerm)⟩)

/-- The method `Scene::phong`. -/
def Scene.phong [FloorRing K] (ops : FloatOps K) (sc : Scene K) (ray : Ray K)
    (closestObj : Object K) (normal : Vec3 K) (t : K) : Colour :=
  let m := closestObj.getMaterial
  let intersection := ray.compute t
  let st := sc.lights_.foldl (Scene.phongStep ops sc ray m intersection) (normal, ⟨0, 0, 0⟩)
  let diffuseAndSpecColour := st.2
  let ka := m.ka
  let ambientColour := m.ambientColor
  ⟨Scene.clamp (floatToInt (ka * (ambientColour.get 0 : K)
      + diffuseAndSpecColour.get 0 / (sc.lights_.length : K))),
   Scene.clamp (floatToInt (ka * (ambientColour.get 1 : K)
      + diffuseAndSpecColour.get 1 / (sc.lights_.length : K))),
   Scene.clamp (floatToInt (ka * (ambientColour.get 2 : K)
      + diffuseAndSpecColour.get 2 / (sc.lights_.length : K)))⟩

/-- The body of the two loops of `Scene::renderScene` for one pixel: the image after the
write to `image_(row, col)`. -/
def Scene.renderPixel [FloorRing K] (ops : FloatOps K) (sc : Scene K) (img : Image)
    (row col : Nat) : Image :=
  let ray := sc.camera_.generateRay (sc.imagePlane_.generatePixelPos col row)
  let r := sc.findClosestObject ray FLT_MAX
  let t := r.2
  match r.1 with
  | some closestObj =>
    let normal := closestObj.getNormal (ray.compute t)
    let colour := sc.phong ops ray closestObj normal t
    img.set row col colour
  | none => img.set row col white

/-- The method `Scene::renderScene`, up to the calls that save and display the image: the
scene with its image after the loops over the rows and the columns. -/
def Scene.renderScene [FloorRing K] (ops : FloatOps K) (sc : Scene K) : Scene K :=
  let image := (List.range sc.image_.rows).foldl
    (fun img row =>
      (List.range sc.image_.cols).foldl (fun img col => sc.renderPixel ops img row col) img)
    sc.image_
  { sc with image_ := image }

/-- The colour that the loop body of `renderScene` writes to the pixel (row, col): the
shaded colour of the closest primitive on the primary ray, or white when there is none. -/
def Scene.pixelColour [FloorRing K] (ops : FloatOps K) (sc : Scene K) (row col : Nat) : Colour :=
  let ray := sc.camera_.generateRay (sc.imagePlane_.generatePixelPos col row)
  let r := sc.findClosestObject ray FLT_MAX
  match r.1 with
  | some closestObj => sc.phong ops ray closestObj (closestObj.getNormal (ray.compute r.2)) r.2
  | none => white

/-- The primitive reports a hit on the ray, at a distance strictly between 0 and `bound`. -/
def Object.qualifies (o : Object K) (ray : Ray K) (bound : K) : Prop :=
  (o.hasIntersect ray).1 = true ∧ 0 < (o.hasIntersect ray).2 ∧ (o.hasIntersect ray).2 < bound

/-! ## The shading formula of the spec -/

/-- The diffuse term `D` and the specular term `S` of one light in the shading formula of
section 4.5, for the hit point `intersection` and the normalised normal `n`: both are zero
when the point is shadowed with respect to the light. -/
def Scene.lightTerms (ops : FloatOps K) (sc : Scene K) (ray : Ray K) (m : Material K)
    (intersection n : Vec3 K) (light : LightSource K) : K × K :=
  let lightVector := light.computeLightVector intersection
  let lightDir := ops.normalize lightVector
  let viewDir := ops.normalize (ray.origin.sub intersection)
  if sc.hasShadow ⟨intersection, lightDir⟩ (ops.norm lightVector) = true then
    (0, 0)
  else
    let r := ops.normalize ((Vec3.smul (2 * lightDir.dot n) n).sub lightDir)
    (max (lightDir.dot n) 0, ops.pow (max (r.dot viewDir) 0) m.specularExp)

/-- The contribution `kd * diffuse[c] * D + ks * specular[c] * S` of one light to the
channel `c`. -/
def Scene.lightContribution (ops : FloatOps K) (sc : Scene K) (ray : Ray K) (m : Material K)
    (intersection n : Vec3 K) (c : Fin 3) (light : LightSource K) : K :=
  m.kd * (m.diffuseColor.get c : K) * (sc.lightTerms ops ray m intersection n light).1
    + m.ks * (m.specularColor.get c : K) * (sc.lightTerms ops ray m intersection n light).2

/-- The channel `c` of the colour the shading formula gives:
`clamp(ka * ambient[c] + A[c] / lightCount)`, the value converted to `int` at the call of
`clamp`, with `A[c]` the sum of the contributions of all lights. -/
def Scene.phongFormula [FloorRing K] (ops : FloatOps K) (sc : Scene K) (ray : Ray K)
    (m : Material K) (intersection n : Vec3 K) (c : Fin 3) : Nat :=
  Scene.clamp (floatToInt (m.ka * (m.ambientColor.get c : K)
    + (sc.lights_.map (sc.lightContribution ops ray m intersection n c)).sum
      / (sc.lights_.length : K)))

/-! ## The mesh loader of `Mesh.h` -/

/-- An array `unsigned int[3]`: the three indices of a face, each a value of
`unsigned int`. -/
structure Index3 where
  i0 : Nat
  i1 : Nat
  i2 : Nat

/-- The entry `index[j]`. -/
def Index3.get (ix : Index3) (j : Fin 3) : Nat :=
  match j with
  | 0 => ix.i0
  | 1 => ix.i1
  | 2 => ix.i2

/-- The struct `Face`.  An array that the parser leaves unassigned is `none`. -/
structure Face where
  vertexIndex : Index3
  normalIndex : Option Index3
  uvIndex : Option Index3

/-- Modelled from the spec: `Triangle.h` is not among the sources.  A triangle is built by
`Triangle(v1, v2, v3)` from its three vertices. -/
structure Triangle (K : Type) where
  v1 : Vec3 K
  v2 : Vec3 K
  v3 : Vec3 K

/-- The text of a face line as the parser sees it: for each of the four `sscanf` calls, in
the order of the source, the number of matches it returns and the index arrays it fills. -/
structure FaceLine where
  matches1 : Int
  vertexIndex1 : Index3
  uvIndex1 : Index3
  normalIndex1 : Index3
  matches2 : Int
  vertexIndex2 : Index3
  normalIndex2 : Index3
  matches3 : Int
  vertexIndex3 : Index3
  uvIndex3 : Index3
  matches4 : Int
  vertexIndex4 : Index3

/-- One pass of the `while` loop as the input gives it: the header token that `fscanf`
reads and, for the headers `v`, `vt`, `vn` and `f`, what the following scan reads. -/
inductive ObjStatement (K : Type) where
  | v : K → K → K → ObjStatement K
  | vt : K → K → ObjStatement K
  | vn : K → K → K → ObjStatement K
  | f : FaceLine → ObjStatement K
  | other : ObjStatement K

/-- The fields of the class `Mesh` that the parser and `getObjects` read or write.  The
file behind `path_` is the argument of the parser. -/
structure Mesh (K : Type) where
  vertices_ : List (Vec3 K)
  uvs_ : List (K × K)
  normals_ : List (Vec3 K)
  faces_ : List Face
  triangles_ : List (Triangle K)
  position_ : Vec3 K
  scale_ : K

/-- The mesh at the start of a constructor, before its call of the parser: all vectors are
empty. -/
def Mesh.empty (position : Vec3 K) (scale : K) : Mesh K :=
  { vertices_ := [], uvs_ := [], normals_ := [], faces_ := [], triangles_ := [],
    position_ := position, scale_ := scale }

/-- The `f` branch up to the test of `matches`: the cascade of the four `sscanf` calls, the
face it fills and the value it leaves in `matches`. -/
def FaceLine.scan (line : FaceLine) : Face × Int :=
  if line.matches1 = 9 then
    ({ vertexIndex := line.vertexIndex1, normalIndex := some line.normalIndex1,
       uvIndex := some line.uvIndex1 }, line.matches1)
  else if line.matches2 = 6 then
    ({ vertexIndex := line.vertexIndex2, normalIndex := some line.normalIndex2,
       uvIndex := none }, line.matches2)
  else if line.matches3 = 6 then
    ({ vertexIndex := line.vertexIndex3, normalIndex := none,
       uvIndex := some line.uvIndex3 }, line.matches3)
  else
    ({ vertexIndex := line.vertexIndex4, normalIndex := none, uvIndex := none },
      line.matches4)

/-- The `while` loop of `Mesh::objectFileParser` over the statements left.  The result is
`(false, mesh)` when the loop ends in `return false`, and `(true, mesh)` when it ends in
the `break` at the end of the file. -/
def Mesh.parseStatements (m : Mesh K) : List (ObjStatement K) → Bool × Mesh K
  | [] => (true, m)
  | .v vx vy vz :: rest =>
    let vz := vz * m.scale_
    let vy := vy * (-m.scale_)
    let vx := vx * m.scale_
    let vz := vz + m.position_.get 2
    let vy := vy + m.position_.get 1
    let vx := vx + m.position_.get 0
    Mesh.parseStatements { m with vertices_ := m.vertices_ ++ [⟨vx, vy, vz⟩] } rest
  | .vt uvx uvy :: rest =>
    Mesh.parseStatements { m with uvs_ := m.uvs_ ++ [(uvx, uvy)] } rest
  | .vn nx ny nz :: rest =>
    Mesh.parseStatements { m with normals_ := m.normals_ ++ [⟨nx, ny, nz⟩] } rest
  | .f line :: rest =>
    let r := line.scan
    let f := r.1
    let matches_ := r.2
    if matches_ ≠ 3 ∧ matches_ ≠ 6 ∧ matches_ ≠ 9 then
      (false, m)
    else
      Mesh.parseStatements { m with faces_ := m.faces_ ++ [f] } rest
  | .other :: rest => Mesh.parseStatements m rest

/-- The index `vertexIndex[j] - 1` in `unsigned int` arithmetic. -/
def unsignedPred (i : Nat) : Nat :=
  (i + 4294967295) % 4294967296

/-- The `for` loop of `Mesh::objectFileParser` over the faces left: one triangle is pushed
per face.  The result is `none` when a read `vertices_[...]` is outside the bounds of the
vector, where C++ defines no behaviour. -/
def Mesh.buildTriangles (m : Mesh K) : List Face → Option (Mesh K)
  | [] => some m
  | face :: rest =>
    match m.vertices_.get? (unsignedPred (face.vertexIndex.get 0)),
      m.vertices_.get? (unsignedPred (face.vertexIndex.get 1)),
      m.vertices_.get? (unsignedPred (face.vertexIndex.get 2)) with
    | some v1, some v2, some v3 =>
      Mesh.buildTriangles { m with triangles_ := m.triangles_ ++ [⟨v1, v2, v3⟩] } rest
    | _, _, _ => none

/-- The method `Mesh::objectFileParser` on the content of the file (`none` when `fopen`
fails): the returned flag and the mesh it leaves, or `none` when the run reads `vertices_`
outside its bounds. -/
def Mesh.objectFileParser (m : Mesh K) (file : Option (List (ObjStatement K))) :
    Option (Bool × Mesh K) :=
  match file with
  | none => some (false, m)
  | some statements =>
    let r := m.parseStatements statements
    if r.1 = false then
      some (false, r.2)
    else
      match r.2.buildTriangles r.2.faces_ with
      | some m' => some (true, m')
      | none => none

/-- The method `Mesh::getObjects`: the output list after the loop that pushes
`&triangles_[i]`.  The conversion of a pointer to a triangle into a pointer to an `Object`
is the parameter `toObject`. -/
def Mesh.getObjects (toObject : Triangle K → Object K) (m : Mesh K)
    (objects : List (Object K)) : List (Object K) :=
  m.triangles_.foldl (fun objects triangle => objects ++ [toObject triangle]) objects

/-- The face that a statement adds to `faces_`: the face of an `f` statement, none for the
other statements. -/
def ObjStatement.face? (st : ObjStatement K) : Option Face :=
  match st with
  | .f line => some line.scan.1
  | _ => none

/-- The face line is readable: the cascade leaves 3, 6 or 9 in `matches`. -/
def FaceLine.readable (line : FaceLine) : Prop :=
  line.scan.2 = 3 ∨ line.scan.2 = 6 ∨ line.scan.2 = 9

/-- The triangle is built from the vertices that the face names, with indices that start
at 1: its k-th vertex is the stored vertex at position `vertexIndex[k] - 1`. -/
def Face.names (vertices : List (Vec3 K)) (face : Face) (triangle : Triangle K) : Prop :=
  vertices.get? (face.vertexIndex.get 0 - 1) = some triangle.v1 ∧
  vertices.get? (face.vertexIndex.get 1 - 1) = some triangle.v2 ∧
  vertices.get? (face.vertexIndex.get 2 - 1) = some triangle.v3

/-! ## Concrete inputs -/

/-- The float operations built on a square root: the Euclidean norm `sqrt(v.v)` and the
normalisation that divides every component by it. -/
def euclidOps (sqrt : K → K) (pow : K → K → K) : FloatOps K :=
  { norm := fun v => sqrt (v.dot v)
    normalize := fun v => ⟨v.x / sqrt (v.dot v), v.y / sqrt (v.dot v), v.z / sqrt (v.dot v)⟩
    pow := pow }

/-- An executable stand-in for the float operations on the rationals: a square root to
three decimals and `pow` with the exponent truncated to a natural number. -/
def approxOps : FloatOps ℚ :=
  euclidOps (fun x => (Nat.sqrt ⌊x * 1000000⌋.toNat : ℚ) / 1000) (fun x e => x ^ ⌊e⌋.toNat)

/-- A material with the given ambient colour. -/
def demoMaterial (F : Type) [LinearOrderedField F] (ambient : Colour) : Material F :=
  { ka := 1 / 2, kd := 1 / 2, ks := 1 / 4, ambientColor := ambient,
    diffuseColor := ⟨100, 100, 100⟩, specularColor := ⟨200, 200, 200⟩, specularExp := 2 }

/-- The plane `z = depth` as a primitive: a ray that is not parallel to it crosses it at
distance `(depth - origin.z) / direction.z`. -/
def planeZ (F : Type) [LinearOrderedField F] (depth : F) (ambient : Colour) : Object F :=
  { hasIntersect := fun ray =>
      (decide (ray.direction.z ≠ 0), (depth - ray.origin.z) / ray.direction.z)
    getNormal := fun _ => ⟨0, 0, 1⟩
    getMaterial := demoMaterial F ambient }

/-- A point light: the light vector of a point is the vector from the point to the
position of the light. -/
def pointLight (F : Type) [LinearOrderedField F] (position : Vec3 F) : LightSource F :=
  { computeLightVector := fun point => position.sub point }

/-- A scene of the given primitives and lights, with a 2 x 2 image and a camera at the
origin that looks down the z axis. -/
def demoScene (F : Type) [LinearOrderedField F] (objects : List (Object F))
    (lights : List (LightSource F)) : Scene F :=
  { image_ := ⟨2, 2, fun _ _ => ⟨0, 0, 0⟩⟩
    objects_ := objects
    lights_ := lights
    camera_ := ⟨fun pos => ⟨⟨0, 0, 0⟩, pos⟩⟩
    imagePlane_ := ⟨fun col row => ⟨col, row, 1⟩⟩ }

/-- The ray from the origin along the z axis. -/
def zRay (F : Type) [LinearOrderedField F] : Ray F :=
  ⟨⟨0, 0, 0⟩, ⟨0, 0, 1⟩⟩

/-- The face line `a b c` of three plain vertex indices: the first three `sscanf` calls
match one number each and the fourth matches all three. -/
def FaceLine.plain (a b c : Nat) : FaceLine :=
  { matches1 := 1, vertexIndex1 := ⟨a, 0, 0⟩, uvIndex1 := ⟨0, 0, 0⟩, normalIndex1 := ⟨0, 0, 0⟩,
    matches2 := 1, vertexIndex2 := ⟨a, 0, 0⟩, normalIndex2 := ⟨0, 0, 0⟩,
    matches3 := 1, vertexIndex3 := ⟨a, 0, 0⟩, uvIndex3 := ⟨0, 0, 0⟩,
    matches4 := 3, vertexIndex4 := ⟨a, b, c⟩ }

/-- A triangle as a primitive that no ray hits, with its first vertex as normal. -/
def triangleObject (triangle : Triangle ℚ) : Object ℚ :=
  { hasIntersect := fun _ => (false, 0)
    getNormal := fun _ => triangle.v1
    getMaterial := demoMaterial ℚ ⟨0, 0, 0⟩ }

/-- An OBJ input of three vertices, a comment token and two faces over them. -/
def demoObj : List (ObjStatement ℚ) :=
  [.v 0 0 0, .v 1 0 0, .v 0 1 0, .other, .f (FaceLine.plain 1 2 3), .f (FaceLine.plain 3 2 1)]

/-- The mesh that the parser leaves on `demoObj`, from the empty mesh at position (0,0,0)
with scale 1: the y coordinates are negated. -/
def demoMesh : Mesh ℚ :=
  { vertices_ := [⟨0, 0, 0⟩, ⟨1, 0, 0⟩, ⟨0, -1, 0⟩]
    uvs_ := []
    normals_ := []
    faces_ := [⟨⟨1, 2, 3⟩, none, none⟩, ⟨⟨3, 2, 1⟩, none, none⟩]
    triangles_ := [⟨⟨0, 0, 0⟩, ⟨1, 0, 0⟩, ⟨0, -1, 0⟩⟩, ⟨⟨0, -1, 0⟩, ⟨1, 0, 0⟩, ⟨0, 0, 0⟩⟩]
    position_ := ⟨0, 0, 0⟩
    scale_ := 1 }

/-- An OBJ input of one vertex and one face that names the vertices 1, 2 and 3. -/
def shortObj : List (ObjStatement ℚ) :=
  [.v 0 0 0, .f (FaceLine.plain 1 2 3)]

/-- The box with corners (-1,-1,-1) and (1,1,1). -/
def unitBox : BoundingBox ℚ :=
  { max_ := ⟨1, 1, 1⟩, min_ := ⟨-1, -1, -1⟩ }

/-! ## The slab test -/

theorem EFloat.lowerOK_narrow (lo : EFloat K) (a t : K) :
    EFloat.lowerOK (if lo.lt (.fin a) then .fin a else lo) t ↔ lo.lowerOK t ∧ a ≤ t := by
  cases lo with
  | negInf => simp [EFloat.lowerOK, EFloat.lt]
  | posInf => simp [EFloat.lowerOK, EFloat.lt]
  | fin l =>
    by_cases h : l < a
    · simp only [EFloat.lowerOK, EFloat.lt, h, decide_True, if_true, decide_eq_false_iff_not,
        not_lt]
      exact ⟨fun h1 => ⟨le_trans h.le h1, h1⟩, fun h1 => h1.2⟩
    · simp only [EFloat.lowerOK, EFloat.lt, h, decide_False, Bool.false_eq_true, if_false,
        decide_eq_false_iff_not, not_lt]
      exact ⟨fun h1 => ⟨h1, le_trans (not_lt.mp h) h1⟩, fun h1 => h1.1⟩

theorem EFloat.upperOK_narrow (hi : EFloat K) (c t : K) :
    EFloat.upperOK (if (EFloat.fin c).lt hi then .fin c else hi) t ↔ hi.upperOK t ∧ t ≤ c := by
  cases hi with
  | negInf => simp [EFloat.upperOK, EFloat.lt]
  | posInf => simp [EFloat.upperOK, EFloat.lt]
  | fin u =>
    by_cases h : c < u
    · simp only [EFloat.upperOK, EFloat.lt, h, decide_True, if_true, decide_eq_false_iff_not,
        not_lt]
      exact ⟨fun h1 => ⟨le_trans h1 h.le, h1⟩, fun h1 => h1.2⟩
    · simp only [EFloat.upperOK, EFloat.lt, h, decide_False, Bool.false_eq_true, if_false,
        decide_eq_false_iff_not, not_lt]
      exact ⟨fun h1 => ⟨h1, le_trans h1 (not_lt.mp h)⟩, fun h1 => h1.1⟩

/-- The rejection test after an axis, `tMin > tMax || tMax < 0`, fails exactly when the
running interval still holds a non-negative distance. -/
theorem EFloat.check_iff (lo hi : EFloat K) (hlo : ∃ t, lo.lowerOK t) (hhi : ∃ t, hi.upperOK t) :
    ¬ (hi.lt lo = true ∨ hi.lt (.fin 0) = true) ↔ ∃ t, 0 ≤ t ∧ lo.lowerOK t ∧ hi.upperOK t := by
  obtain ⟨t1, h1⟩ := hlo
  obtain ⟨t2, h2⟩ := hhi
  cases lo with
  | posInf => simp [EFloat.lowerOK, EFloat.lt] at h1
  | negInf =>
    cases hi with
    | negInf => simp [EFloat.upperOK, EFloat.lt] at h2
    | posInf => simp [EFloat.lowerOK, EFloat.upperOK, EFloat.lt]; exact ⟨0, le_refl _⟩
    | fin u =>
      simp only [EFloat.lowerOK, EFloat.upperOK, EFloat.lt, Bool.false_eq_true, false_or,
        decide_eq_true_eq, not_lt, decide_eq_false_iff_not, true_and]
      exact ⟨fun h => ⟨0, le_refl _, h⟩, fun ⟨t, ht, htu⟩ => le_trans ht htu⟩
  | fin l =>
    cases hi with
    | negInf => simp [EFloat.upperOK, EFloat.lt] at h2
    | posInf =>
      simp only [EFloat.lowerOK, EFloat.upperOK, EFloat.lt, Bool.false_eq_true, or_self,
        not_false_eq_true, decide_eq_false_iff_not, not_lt, and_true, true_iff]
      exact ⟨max l 0, le_max_right _ _, le_max_left _ _⟩
    | fin u =>
      simp only [EFloat.lowerOK, EFloat.upperOK, EFloat.lt, decide_eq_true_eq, not_or, not_lt,
        decide_eq_false_iff_not]
      constructor
      · rintro ⟨hlu, hu⟩
        exact ⟨max l 0, le_max_right _ _, le_max_left _ _, max_le hlu hu⟩
      · rintro ⟨t, ht, hlt, htu⟩
        exact ⟨le_trans hlt htu, le_trans ht htu⟩

/-- On an axis whose direction component is not zero, the point at distance `t` lies in the
slab exactly when `t` lies between the two crossing distances. -/
theorem slab_iff_between (lo hi o d t : K) (hd : d ≠ 0) (hbox : lo ≤ hi) :
    (lo ≤ o + t * d ∧ o + t * d ≤ hi) ↔
      (min ((lo - o) / d) ((hi - o) / d) ≤ t ∧ t ≤ max ((lo - o) / d) ((hi - o) / d)) := by
  rcases lt_or_gt_of_ne hd with hneg | hpos
  · have hle : (hi - o) / d ≤ (lo - o) / d :=
      div_le_div_of_nonpos_of_le hneg.le (by linarith)
    rw [min_eq_right hle, max_eq_left hle, div_le_iff_of_neg hneg, le_div_iff_of_neg hneg]
    constructor <;> rintro ⟨h1, h2⟩ <;> constructor <;> linarith
  · have hle : (lo - o) / d ≤ (hi - o) / d :=
      div_le_div_of_nonneg_right (by linarith) hpos.le
    rw [min_eq_left hle, max_eq_right hle, div_le_iff₀ hpos, le_div_iff₀ hpos]
    constructor <;> rintro ⟨h1, h2⟩ <;> constructor <;> linarith

/-- The loop of `hasIntersect` from a running interval that still holds a non-negative
distance: it runs to `return true` exactly when one distance of the interval puts the ray,
with its epsilon-band direction components read as zero, in the slab of every axis left. -/
theorem BoundingBox.hasIntersectLoop_iff (b : BoundingBox K) (ray : Ray K)
    (hbox : ∀ i : Fin 3, b.min_.get i ≤ b.max_.get i) (l : List (Fin 3)) :
    ∀ (tMin tMax : EFloat K), (∃ t, 0 ≤ t ∧ tMin.lowerOK t ∧ tMax.upperOK t) →
      (b.hasIntersectLoop ray l tMin tMax = true ↔
        ∃ t, 0 ≤ t ∧ tMin.lowerOK t ∧ tMax.upperOK t ∧ ∀ i ∈ l,
          b.min_.get i ≤ ray.origin.get i + t * snapDirection (ray.direction.get i) ∧
          ray.origin.get i + t * snapDirection (ray.direction.get i) ≤ b.max_.get i) := by
  induction l with
  | nil =>
    intro tMin tMax hinv
    simpa [BoundingBox.hasIntersectLoop] using hinv
  | cons i rest ih =>
    intro tMin tMax hinv
    by_cases hpar : |ray.direction.get i| < 1 / 1000
    · by_cases hout : ray.origin.get i < b.min_.get i ∨ ray.origin.get i > b.max_.get i
      · simp only [BoundingBox.hasIntersectLoop, hpar, if_true, hout, Bool.false_eq_true,
          false_iff]
        rintro ⟨t, -, -, -, hall⟩
        have h := hall i (List.mem_cons_self _ _)
        simp only [snapDirection, hpar, if_true, mul_zero, add_zero] at h
        rcases hout with h1 | h1
        · exact absurd h.1 (not_le.mpr h1)
        · exact absurd h.2 (not_le.mpr h1)
      · simp only [BoundingBox.hasIntersectLoop, hpar, if_true, hout, if_false]
        rw [ih tMin tMax hinv]
        have hin : b.min_.get i ≤ ray.origin.get i ∧ ray.origin.get i ≤ b.max_.get i := by
          constructor
          · exact not_lt.mp fun h => hout (Or.inl h)
          · exact not_lt.mp fun h => hout (Or.inr h)
        constructor
        · rintro ⟨t, h0, h1, h2, hall⟩
          refine ⟨t, h0, h1, h2, ?_⟩
          intro j hj
          rcases List.mem_cons.mp hj with rfl | hj
          · simp only [snapDirection, hpar, if_true, mul_zero, add_zero]
            exact hin
          · exact hall j hj
        · rintro ⟨t, h0, h1, h2, hall⟩
          exact ⟨t, h0, h1, h2, fun j hj => hall j (List.mem_cons_of_mem _ hj)⟩
    · have hd : ray.direction.get i ≠ 0 := by
        intro h0
        apply hpar
        rw [h0, abs_zero]
        norm_num
      have hslab := fun t => slab_iff_between (b.min_.get i) (b.max_.get i) (ray.origin.get i)
        (ray.direction.get i) t hd (hbox i)
      simp only [BoundingBox.hasIntersectLoop, hpar, if_false]
      set t0 := min ((b.min_.get i - ray.origin.get i) / ray.direction.get i)
        ((b.max_.get i - ray.origin.get i) / ray.direction.get i) with ht0
      set t1 := max ((b.min_.get i - ray.origin.get i) / ray.direction.get i)
        ((b.max_.get i - ray.origin.get i) / ray.direction.get i) with ht1
      have hord : ¬ (t0 > t1) :=
        not_lt.mpr (le_trans (min_le_left _ _) (le_max_left _ _))
      simp only [hord, if_false]
      obtain ⟨tw, -, hw1, hw2⟩ := hinv
      have hlo : ∃ t, EFloat.lowerOK (if tMin.lt (.fin t0) then .fin t0 else tMin) t :=
        ⟨max tw t0, (EFloat.lowerOK_narrow _ _ _).mpr ⟨by
          cases tMin with
          | negInf => simp [EFloat.lowerOK, EFloat.lt]
          | posInf => simp [EFloat.lowerOK, EFloat.lt] at hw1
          | fin u =>
            simp only [EFloat.lowerOK, EFloat.lt, decide_eq_false_iff_not, not_lt] at hw1 ⊢
            exact le_trans hw1 (le_max_left _ _), le_max_right _ _⟩⟩
      have hhi : ∃ t, EFloat.upperOK (if (EFloat.fin t1).lt tMax then .fin t1 else tMax) t :=
        ⟨min tw t1, (EFloat.upperOK_narrow _ _ _).mpr ⟨by
          cases tMax with
          | posInf => simp [EFloat.upperOK, EFloat.lt]
          | negInf => simp [EFloat.upperOK, EFloat.lt] at hw2
          | fin u =>
            simp only [EFloat.upperOK, EFloat.lt, decide_eq_false_iff_not, not_lt] at hw2 ⊢
            exact le_trans (min_le_left _ _) hw2, min_le_right _ _⟩⟩
      have hchk := EFloat.check_iff _ _ hlo hhi
      set lo' := (if tMin.lt (.fin t0) then EFloat.fin t0 else tMin) with hlo'
      set hi' := (if (EFloat.fin t1).lt tMax then EFloat.fin t1 else tMax) with hhi'
      by_cases hrej : hi'.lt lo' = true ∨ hi'.lt (.fin 0) = true
      · rw [if_pos hrej]
        simp only [Bool.false_eq_true, false_iff]
        rintro ⟨t, h0, h1, h2, hall⟩
        have hi := hall i (List.mem_cons_self _ _)
        simp only [snapDirection, hpar, if_false] at hi
        have hb := (hslab t).mp hi
        exact (hchk.mpr ⟨t, h0, (EFloat.lowerOK_narrow _ _ _).mpr ⟨h1, hb.1⟩,
          (EFloat.upperOK_narrow _ _ _).mpr ⟨h2, hb.2⟩⟩) hrej
      · rw [if_neg hrej, ih _ _ (hchk.mp hrej)]
        constructor
        · rintro ⟨t, h0, h1, h2, hall⟩
          have h1' := (EFloat.lowerOK_narrow _ _ _).mp h1
          have h2' := (EFloat.upperOK_narrow _ _ _).mp h2
          refine ⟨t, h0, h1'.1, h2'.1, ?_⟩
          intro j hj
          rcases List.mem_cons.mp hj with rfl | hj
          · simp only [snapDirection, hpar, if_false]
            exact (hslab t).mpr ⟨h1'.2, h2'.2⟩
          · exact hall j hj
        · rintro ⟨t, h0, h1, h2, hall⟩
          have hi := hall i (List.mem_cons_self _ _)
          simp only [snapDirection, hpar, if_false] at hi
          have hb := (hslab t).mp hi
          exact ⟨t, h0, (EFloat.lowerOK_narrow _ _ _).mpr ⟨h1, hb.1⟩,
            (EFloat.upperOK_narrow _ _ _).mpr ⟨h2, hb.2⟩,
            fun j hj => hall j (List.mem_cons_of_mem _ hj)⟩

/-- C1 (as amended): for a box with `min[i] ≤ max[i]` on every axis, `hasIntersect` returns
true exactly when some distance `t ≥ 0` puts the point `o + t * d'` in the box, where `d'`
is the ray direction with every component of magnitude below 0.001 replaced by zero. -/
theorem BoundingBox.hasIntersect_iff_snapped (b : BoundingBox K) (ray : Ray K)
    (hbox : ∀ i : Fin 3, b.min_.get i ≤ b.max_.get i) :
    b.hasIntersect ray = true ↔
      ∃ t, 0 ≤ t ∧ ∀ i : Fin 3,
        b.min_.get i ≤ ray.origin.get i + t * snapDirection (ray.direction.get i) ∧
        ray.origin.get i + t * snapDirection (ray.direction.get i) ≤ b.max_.get i := by
  unfold BoundingBox.hasIntersect
  rw [BoundingBox.hasIntersectLoop_iff b ray hbox [0, 1, 2] .negInf .posInf
    ⟨0, le_refl _, by simp [EFloat.lowerOK, EFloat.lt], by simp [EFloat.upperOK, EFloat.lt]⟩]
  constructor
  · rintro ⟨t, h0, -, -, hall⟩
    refine ⟨t, h0, fun i => hall i ?_⟩
    fin_cases i <;> simp
  · rintro ⟨t, h0, hall⟩
    exact ⟨t, h0, by simp [EFloat.lowerOK, EFloat.lt], by simp [EFloat.upperOK, EFloat.lt],
      fun i _ => hall i⟩

/-- C1 (witness): the characterisation applied to the box (-1,-1,-1)..(1,1,1) and a ray
with one direction component inside the epsilon band. -/
theorem BoundingBox.hasIntersect_iff_snapped_witness :
    (∀ i : Fin 3, unitBox.min_.get i ≤ unitBox.max_.get i) ∧
    (unitBox.hasIntersect ⟨⟨-5, 0, 0⟩, ⟨1 / 2048, 0, 0⟩⟩ = true ↔
      ∃ t : ℚ, 0 ≤ t ∧ ∀ i : Fin 3,
        unitBox.min_.get i ≤ (⟨-5, 0, 0⟩ : Vec3 ℚ).get i
          + t * snapDirection ((⟨1 / 2048, 0, 0⟩ : Vec3 ℚ).get i) ∧
        (⟨-5, 0, 0⟩ : Vec3 ℚ).get i
          + t * snapDirection ((⟨1 / 2048, 0, 0⟩ : Vec3 ℚ).get i) ≤ unitBox.max_.get i) :=
  ⟨by intro i; fin_cases i <;> norm_num [unitBox, Vec3.get],
   BoundingBox.hasIntersect_iff_snapped unitBox ⟨⟨-5, 0, 0⟩, ⟨1 / 2048, 0, 0⟩⟩
    (by intro i; fin_cases i <;> norm_num [unitBox, Vec3.get])⟩

/-- C1 (counterexample): for the box (-1,-1,-1)..(1,1,1) and the ray from (-5,0,0) with
direction (1/2048,0,0), the point at distance 8192 is the point (-1,0,0) on a face of the box,
yet `hasIntersect` returns false: the x component 1/2048 lies inside the epsilon band and
the origin is outside the x slab. -/
theorem BoundingBox.hasIntersect_not_exact :
    (∀ i : Fin 3, unitBox.min_.get i ≤ unitBox.max_.get i) ∧
    unitBox.hasIntersect ⟨⟨-5, 0, 0⟩, ⟨1 / 2048, 0, 0⟩⟩ = false ∧
    ∃ t : ℚ, 0 ≤ t ∧ ∀ i : Fin 3,
      unitBox.min_.get i ≤ (⟨-5, 0, 0⟩ : Vec3 ℚ).get i + t * (⟨1 / 2048, 0, 0⟩ : Vec3 ℚ).get i ∧
      (⟨-5, 0, 0⟩ : Vec3 ℚ).get i + t * (⟨1 / 2048, 0, 0⟩ : Vec3 ℚ).get i
        ≤ unitBox.max_.get i := by
  refine ⟨?_, ?_, 8192, by norm_num, ?_⟩
  · intro i; fin_cases i <;> norm_num [unitBox, Vec3.get]
  · norm_num [BoundingBox.hasIntersect, BoundingBox.hasIntersectLoop, unitBox, Vec3.get,
      EFloat.lt, abs_of_pos]
  · intro i; fin_cases i <;> norm_num [unitBox, Vec3.get]

/-- The converse failure inside the epsilon band: for the box (-1,-1,-1)..(1,1,1) and the
ray from (1,0,-5) with direction (1/2048,0,1), `hasIntersect` returns true although no
point of the ray lies in the box: the x component is read as zero, while the ray leaves
the x slab at once. -/
theorem BoundingBox.hasIntersect_accepts_miss :
    unitBox.hasIntersect ⟨⟨1, 0, -5⟩, ⟨1 / 2048, 0, 1⟩⟩ = true ∧
    ¬ ∃ t : ℚ, 0 ≤ t ∧ ∀ i : Fin 3,
      unitBox.min_.get i ≤ (⟨1, 0, -5⟩ : Vec3 ℚ).get i + t * (⟨1 / 2048, 0, 1⟩ : Vec3 ℚ).get i ∧
      (⟨1, 0, -5⟩ : Vec3 ℚ).get i + t * (⟨1 / 2048, 0, 1⟩ : Vec3 ℚ).get i
        ≤ unitBox.max_.get i := by
  constructor
  · norm_num [BoundingBox.hasIntersect, BoundingBox.hasIntersectLoop, unitBox, Vec3.get,
      EFloat.lt, abs_of_pos]
  · rintro ⟨t, -, hall⟩
    have hx := hall 0
    have hz := hall 2
    norm_num [unitBox, Vec3.get] at hx hz
    linarith [hx.2, hz.1]

/-- C2: for the box (-1,-1,-1)..(1,1,1), `hasIntersect` returns true for the ray from
(0,0,-5) along (0,0,1), false for the ray from (5,5,5) along (1,1,1), and false for the ray
from (2,0,-5) along (0,0,1). -/
theorem BoundingBox.hasIntersect_unitBox_examples :
    unitBox.hasIntersect ⟨⟨0, 0, -5⟩, ⟨0, 0, 1⟩⟩ = true ∧
    unitBox.hasIntersect ⟨⟨5, 5, 5⟩, ⟨1, 1, 1⟩⟩ = false ∧
    unitBox.hasIntersect ⟨⟨2, 0, -5⟩, ⟨0, 0, 1⟩⟩ = false := by
  refine ⟨?_, ?_, ?_⟩ <;>
    norm_num [BoundingBox.hasIntersect, BoundingBox.hasIntersectLoop, unitBox, Vec3.get,
      EFloat.lt]

/-! ## The nearest-hit search -/

/-- The test of the loop body of `findClosestObject` is the test that the primitive
qualifies under the current bound. -/
theorem Object.qualifies_iff (o : Object K) (ray : Ray K) (t : K) :
    ((o.hasIntersect ray).2 > 0 ∧ (o.hasIntersect ray).2 < t ∧ (o.hasIntersect ray).1 = true) ↔
      o.qualifies ray t := by
  unfold Object.qualifies
  constructor
  · rintro ⟨h1, h2, h3⟩
    exact ⟨h3, h1, h2⟩
  · rintro ⟨h1, h2, h3⟩
    exact ⟨h2, h3, h1⟩

theorem Scene.findClosestObjectLoop_cons_pos (ray : Ray K) (o : Object K)
    (rest : List (Object K)) (cur : Option (Object K)) (t : K) (h : o.qualifies ray t) :
    Scene.findClosestObjectLoop ray (o :: rest) cur t =
      Scene.findClosestObjectLoop ray rest (some o) (o.hasIntersect ray).2 := by
  have h' := (Object.qualifies_iff o ray t).mpr h
  simp only [Scene.findClosestObjectLoop]
  exact if_pos h'

theorem Scene.findClosestObjectLoop_cons_neg (ray : Ray K) (o : Object K)
    (rest : List (Object K)) (cur : Option (Object K)) (t : K) (h : ¬ o.qualifies ray t) :
    Scene.findClosestObjectLoop ray (o :: rest) cur t =
      Scene.findClosestObjectLoop ray rest cur t := by
  have h' : ¬ ((o.hasIntersect ray).2 > 0 ∧ (o.hasIntersect ray).2 < t ∧
      (o.hasIntersect ray).1 = true) := fun hc => h ((Object.qualifies_iff o ray t).mp hc)
  simp only [Scene.findClosestObjectLoop]
  exact if_neg h'

/-- The loop of `findClosestObject`: either no primitive left qualifies and the state is
returned unchanged, or the result is a primitive of the list together with its reported
distance; in both cases the final bound is at most the initial bound and at most the
distance of every qualifying primitive. -/
theorem Scene.findClosestObjectLoop_spec (ray : Ray K) (l : List (Object K)) :
    ∀ (cur : Option (Object K)) (t : K),
      ((Scene.findClosestObjectLoop ray l cur t = (cur, t) ∧ ∀ o ∈ l, ¬ o.qualifies ray t) ∨
        (∃ o ∈ l, Scene.findClosestObjectLoop ray l cur t = (some o, (o.hasIntersect ray).2) ∧
          o.qualifies ray t)) ∧
      (Scene.findClosestObjectLoop ray l cur t).2 ≤ t ∧
      (∀ o ∈ l, o.qualifies ray t →
        (Scene.findClosestObjectLoop ray l cur t).2 ≤ (o.hasIntersect ray).2) := by
  induction l with
  | nil =>
    intro cur t
    simp [Scene.findClosestObjectLoop]
  | cons o rest ih =>
    intro cur t
    by_cases hq : o.qualifies ray t
    · rw [Scene.findClosestObjectLoop_cons_pos ray o rest cur t hq]
      obtain ⟨hcase, hle, hmin⟩ := ih (some o) (o.hasIntersect ray).2
      refine ⟨Or.inr ?_, le_trans hle hq.2.2.le, ?_⟩
      · rcases hcase with ⟨heq, -⟩ | ⟨o', ho', heq, hq'⟩
        · exact ⟨o, List.mem_cons_self _ _, heq, hq⟩
        · exact ⟨o', List.mem_cons_of_mem _ ho', heq, hq'.1, hq'.2.1, lt_trans hq'.2.2 hq.2.2⟩
      · intro x hx hxq
        rcases List.mem_cons.mp hx with rfl | hx
        · exact hle
        · by_cases hlt : (x.hasIntersect ray).2 < (o.hasIntersect ray).2
          · exact hmin x hx ⟨hxq.1, hxq.2.1, hlt⟩
          · exact le_trans hle (not_lt.mp hlt)
    · rw [Scene.findClosestObjectLoop_cons_neg ray o rest cur t hq]
      obtain ⟨hcase, hle, hmin⟩ := ih cur t
      refine ⟨?_, hle, ?_⟩
      · rcases hcase with ⟨heq, hnone⟩ | ⟨o', ho', heq, hq'⟩
        · refine Or.inl ⟨heq, ?_⟩
          intro x hx
          rcases List.mem_cons.mp hx with rfl | hx
          · exact hq
          · exact hnone x hx
        · exact Or.inr ⟨o', List.mem_cons_of_mem _ ho', heq, hq'⟩
      · intro x hx hxq
        rcases List.mem_cons.mp hx with rfl | hx
        · exact absurd hxq hq
        · exact hmin x hx hxq

/-- The loop over a concatenation runs the loop over the second list from the state the
first list leaves. -/
theorem Scene.findClosestObjectLoop_append (ray : Ray K) (l1 l2 : List (Object K)) :
    ∀ (cur : Option (Object K)) (t : K),
      Scene.findClosestObjectLoop ray (l1 ++ l2) cur t =
        Scene.findClosestObjectLoop ray l2 (Scene.findClosestObjectLoop ray l1 cur t).1
          (Scene.findClosestObjectLoop ray l1 cur t).2 := by
  induction l1 with
  | nil =>
    intro cur t
    simp [Scene.findClosestObjectLoop]
  | cons o rest ih =>
    intro cur t
    by_cases hq : o.qualifies ray t
    · rw [List.cons_append, Scene.findClosestObjectLoop_cons_pos ray o _ cur t hq,
        Scene.findClosestObjectLoop_cons_pos ray o _ cur t hq, ih]
    · rw [List.cons_append, Scene.findClosestObjectLoop_cons_neg ray o _ cur t hq,
        Scene.findClosestObjectLoop_cons_neg ray o _ cur t hq, ih]

/-- When every qualifying primitive of the list is farther than `m`, and the initial bound
is above `m`, the bound the loop leaves is above `m`. -/
theorem Scene.findClosestObjectLoop_bound_gt (ray : Ray K) (m : K) (l : List (Object K)) :
    ∀ (cur : Option (Object K)) (t : K), m < t →
      (∀ o ∈ l, o.qualifies ray t → m < (o.hasIntersect ray).2) →
      m < (Scene.findClosestObjectLoop ray l cur t).2 := by
  intro cur t hmt hall
  obtain ⟨hcase, -, -⟩ := Scene.findClosestObjectLoop_spec ray l cur t
  rcases hcase with ⟨heq, -⟩ | ⟨o, ho, heq, hq⟩
  · rw [heq]
    exact hmt
  · rw [heq]
    exact hall o ho hq

/-- C3: when `findClosestObject` returns a primitive `p` and leaves the bound at `d`, then
`p` is a primitive of the list that reports a hit at distance `d`, with `0 < d < t0`, and
no primitive of the list reports a hit at a strictly positive distance smaller than `d`. -/
theorem Scene.findClosestObject_closest (sc : Scene K) (ray : Ray K) (t0 : K)
    (p : Object K) (d : K) (h : sc.findClosestObject ray t0 = (some p, d)) :
    p ∈ sc.objects_ ∧ p.hasIntersect ray = (true, d) ∧ 0 < d ∧ d < t0 ∧
      ∀ o ∈ sc.objects_, ¬ ((o.hasIntersect ray).1 = true ∧ 0 < (o.hasIntersect ray).2 ∧
        (o.hasIntersect ray).2 < d) := by
  unfold Scene.findClosestObject at h
  obtain ⟨hcase, -, hmin⟩ := Scene.findClosestObjectLoop_spec ray sc.objects_ none t0
  rw [h] at hcase hmin
  rcases hcase with ⟨heq, -⟩ | ⟨o, ho, heq, hq⟩
  · simp at heq
  · simp only [Prod.mk.injEq, Option.some.injEq] at heq
    obtain ⟨rfl, rfl⟩ := heq
    refine ⟨ho, Prod.ext hq.1 rfl, hq.2.1, hq.2.2, ?_⟩
    rintro x hx ⟨hx1, hx2, hx3⟩
    exact absurd (hmin x hx ⟨hx1, hx2, lt_trans hx3 hq.2.2⟩) (not_le.mpr hx3)

/-- C3 (witness): of the planes `z = 3` and `z = 2`, the search along the z axis with
bound 10 returns the plane `z = 2` and leaves the bound at 2. -/
theorem Scene.findClosestObject_closest_witness :
    (demoScene ℚ [planeZ ℚ 3 ⟨1, 1, 1⟩, planeZ ℚ 2 ⟨2, 2, 2⟩] []).findClosestObject
      (zRay ℚ) 10 = (some (planeZ ℚ 2 ⟨2, 2, 2⟩), 2) ∧
    (planeZ ℚ 2 ⟨2, 2, 2⟩ ∈ (demoScene ℚ [planeZ ℚ 3 ⟨1, 1, 1⟩, planeZ ℚ 2 ⟨2, 2, 2⟩] []).objects_ ∧
      (planeZ ℚ 2 ⟨2, 2, 2⟩).hasIntersect (zRay ℚ) = (true, 2) ∧ (0 : ℚ) < 2 ∧ (2 : ℚ) < 10 ∧
      ∀ o ∈ (demoScene ℚ [planeZ ℚ 3 ⟨1, 1, 1⟩, planeZ ℚ 2 ⟨2, 2, 2⟩] []).objects_,
        ¬ ((o.hasIntersect (zRay ℚ)).1 = true ∧ 0 < (o.hasIntersect (zRay ℚ)).2 ∧
          (o.hasIntersect (zRay ℚ)).2 < 2)) :=
  ⟨by norm_num [Scene.findClosestObject, Scene.findClosestObjectLoop, demoScene, planeZ, zRay],
   Scene.findClosestObject_closest _ (zRay ℚ) 10 (planeZ ℚ 2 ⟨2, 2, 2⟩) 2
    (by norm_num [Scene.findClosestObject, Scene.findClosestObjectLoop, demoScene, planeZ,
      zRay])⟩

/-- C4: when the primitive `p` qualifies (it reports a hit at a distance strictly between 0
and the initial bound), no qualifying primitive of the list is nearer, and no primitive
before `p` in the list reports a hit at the same distance, then `findClosestObject` returns
`p` with its distance: among primitives tied at the minimal qualifying distance the first
in list order is returned. -/
theorem Scene.findClosestObject_first_of_ties (sc : Scene K) (ray : Ray K) (t0 : K)
    (before after : List (Object K)) (p : Object K)
    (hlist : sc.objects_ = before ++ p :: after)
    (hq : p.qualifies ray t0)
    (hmin : ∀ o ∈ sc.objects_, o.qualifies ray t0 →
      (p.hasIntersect ray).2 ≤ (o.hasIntersect ray).2)
    (hfirst : ∀ o ∈ before, ¬ ((o.hasIntersect ray).1 = true ∧
      (o.hasIntersect ray).2 = (p.hasIntersect ray).2)) :
    sc.findClosestObject ray t0 = (some p, (p.hasIntersect ray).2) := by
  unfold Scene.findClosestObject
  rw [hlist, Scene.findClosestObjectLoop_append]
  have hgt : (p.hasIntersect ray).2 < (Scene.findClosestObjectLoop ray before none t0).2 := by
    apply Scene.findClosestObjectLoop_bound_gt ray _ before none t0 hq.2.2
    intro o ho hoq
    have hle := hmin o (by rw [hlist]; exact List.mem_append_left _ ho) hoq
    rcases lt_or_eq_of_le hle with hlt | heq
    · exact hlt
    · exact absurd ⟨hoq.1, heq.symm⟩ (hfirst o ho)
  rw [Scene.findClosestObjectLoop_cons_pos ray p after _ _ ⟨hq.1, hq.2.1, hgt⟩]
  obtain ⟨hcase, -, -⟩ :=
    Scene.findClosestObjectLoop_spec ray after (some p) (p.hasIntersect ray).2
  rcases hcase with ⟨heq, -⟩ | ⟨o, ho, -, hoq⟩
  · exact heq
  · have hle := hmin o (by rw [hlist]; exact List.mem_append_right _ (List.mem_cons_of_mem _ ho))
      ⟨hoq.1, hoq.2.1, lt_trans hoq.2.2 hq.2.2⟩
    exact absurd hle (not_le.mpr hoq.2.2)

/-- C4 (witness): two planes `z = 2` that differ in their material, after a plane `z = 3`:
the search returns the first of the two. -/
theorem Scene.findClosestObject_first_of_ties_witness :
    (demoScene ℚ [planeZ ℚ 3 ⟨1, 1, 1⟩, planeZ ℚ 2 ⟨2, 2, 2⟩, planeZ ℚ 2 ⟨3, 3, 3⟩] []).objects_ =
      [planeZ ℚ 3 ⟨1, 1, 1⟩] ++ planeZ ℚ 2 ⟨2, 2, 2⟩ :: [planeZ ℚ 2 ⟨3, 3, 3⟩] ∧
    (planeZ ℚ 2 ⟨2, 2, 2⟩).qualifies (zRay ℚ) 10 ∧
    (demoScene ℚ [planeZ ℚ 3 ⟨1, 1, 1⟩, planeZ ℚ 2 ⟨2, 2, 2⟩,
      planeZ ℚ 2 ⟨3, 3, 3⟩] []).findClosestObject (zRay ℚ) 10 =
      (some (planeZ ℚ 2 ⟨2, 2, 2⟩), ((planeZ ℚ 2 ⟨2, 2, 2⟩).hasIntersect (zRay ℚ)).2) :=
  ⟨rfl, by norm_num [Object.qualifies, planeZ, zRay],
   Scene.findClosestObject_first_of_ties _ (zRay ℚ) 10 [planeZ ℚ 3 ⟨1, 1, 1⟩]
    [planeZ ℚ 2 ⟨3, 3, 3⟩] (planeZ ℚ 2 ⟨2, 2, 2⟩) rfl (by norm_num [Object.qualifies, planeZ, zRay])
    (by
      intro o ho _
      simp only [demoScene, List.mem_cons, List.mem_singleton, List.not_mem_nil, or_false] at ho
      rcases ho with rfl | rfl | rfl <;> norm_num [planeZ, zRay])
    (by
      intro o ho
      simp only [List.mem_singleton] at ho
      subst ho
      norm_num [planeZ, zRay])⟩

/-- C5: `findClosestObject` returns the null pointer exactly when no primitive of the list
reports a hit at a distance strictly between 0 and the initial bound `t0`, and then the
bound is left at `t0`. -/
theorem Scene.findClosestObject_none_iff (sc : Scene K) (ray : Ray K) (t0 : K) :
    ((sc.findClosestObject ray t0).1 = none ↔
      ∀ o ∈ sc.objects_, ¬ ((o.hasIntersect ray).1 = true ∧ 0 < (o.hasIntersect ray).2 ∧
        (o.hasIntersect ray).2 < t0)) ∧
    ((sc.findClosestObject ray t0).1 = none → (sc.findClosestObject ray t0).2 = t0) := by
  unfold Scene.findClosestObject
  obtain ⟨hcase, -, -⟩ := Scene.findClosestObjectLoop_spec ray sc.objects_ none t0
  rcases hcase with ⟨heq, hnone⟩ | ⟨o, ho, heq, hq⟩
  · rw [heq]
    exact ⟨⟨fun _ => hnone, fun _ => rfl⟩, fun _ => rfl⟩
  · rw [heq]
    refine ⟨⟨fun h => ?_, fun h => absurd hq (h o ho)⟩, fun h => ?_⟩
    · simp at h
    · simp at h

/-! ## The shadow test -/

/-- C6: `hasShadow` returns true exactly when some primitive of the list reports a hit at
a distance strictly between 0.0001 and the light distance. -/
theorem Scene.hasShadow_iff (sc : Scene K) (ray : Ray K) (lightDirLength : K) :
    sc.hasShadow ray lightDirLength = true ↔
      ∃ o ∈ sc.objects_, (o.hasIntersect ray).1 = true ∧ 1 / 10000 < (o.hasIntersect ray).2 ∧
        (o.hasIntersect ray).2 < lightDirLength := by
  unfold Scene.hasShadow
  induction sc.objects_ with
  | nil => simp [Scene.hasShadowLoop]
  | cons o rest ih =>
    by_cases hc : (o.hasIntersect ray).2 > 1 / 10000 ∧ (o.hasIntersect ray).2 < lightDirLength ∧
        (o.hasIntersect ray).1 = true
    · have hstep : Scene.hasShadowLoop ray lightDirLength (o :: rest) = true := by
        simp only [Scene.hasShadowLoop]
        exact if_pos hc
      rw [hstep]
      exact ⟨fun _ => ⟨o, List.mem_cons_self _ _, hc.2.2, hc.1, hc.2.1⟩, fun _ => rfl⟩
    · have hstep : Scene.hasShadowLoop ray lightDirLength (o :: rest) =
          Scene.hasShadowLoop ray lightDirLength rest := by
        simp only [Scene.hasShadowLoop]
        exact if_neg hc
      rw [hstep, ih]
      constructor
      · rintro ⟨x, hx, hx'⟩
        exact ⟨x, List.mem_cons_of_mem _ hx, hx'⟩
      · rintro ⟨x, hx, hx1, hx2, hx3⟩
        rcases List.mem_cons.mp hx with rfl | hx
        · exact absurd ⟨hx2, hx3, hx1⟩ hc
        · exact ⟨x, hx, hx1, hx2, hx3⟩

/-! ## Clamping -/

theorem Scene.clamp_of_neg (x : Int) (h : x < 0) : Scene.clamp x = 0 := by
  simp [Scene.clamp, h]

theorem Scene.clamp_of_mid (x : Int) (h0 : 0 ≤ x) (h1 : x < 255) :
    (Scene.clamp x : Int) = x := by
  have h2 : ¬ x < 0 := by omega
  have h3 : ¬ x ≥ 255 := by omega
  simp only [Scene.clamp, h2, h3, if_false, intToUchar]
  omega

theorem Scene.clamp_of_ge (x : Int) (h : 255 ≤ x) : Scene.clamp x = 255 := by
  have h1 : ¬ x < 0 := by omega
  simp [Scene.clamp, h1, h]

/-- C7: `clamp(x)` is 0 when `x < 0`, is `x` when `0 ≤ x < 255`, and is 255 when
`x ≥ 255`. -/
theorem Scene.clamp_cases (x : Int) :
    (x < 0 → Scene.clamp x = 0) ∧
    (0 ≤ x ∧ x < 255 → (Scene.clamp x : Int) = x) ∧
    (255 ≤ x → Scene.clamp x = 255) :=
  ⟨Scene.clamp_of_neg x, fun h => Scene.clamp_of_mid x h.1 h.2, Scene.clamp_of_ge x⟩

/-- C7 (witness): the three cases at -7, 100 and 300. -/
theorem Scene.clamp_cases_witness :
    Scene.clamp (-7) = 0 ∧ (Scene.clamp 100 : Int) = 100 ∧ Scene.clamp 300 = 255 :=
  ⟨(Scene.clamp_cases (-7)).1 (by decide), (Scene.clamp_cases 100).2.1 (by decide),
    (Scene.clamp_cases 300).2.2 (by decide)⟩

/-- C8: `clamp` is idempotent, `clamp(clamp(x)) = clamp(x)` for every integer `x`. -/
theorem Scene.clamp_idempotent (x : Int) :
    Scene.clamp (Scene.clamp x : Int) = Scene.clamp x := by
  rcases lt_or_le x 0 with hx | hx
  · rw [Scene.clamp_of_neg x hx]
    rfl
  · rcases lt_or_le x 255 with hx' | hx'
    · rw [Scene.clamp_of_mid x hx hx']
    · rw [Scene.clamp_of_ge x hx']
      rfl

/-! ## The render loop -/

theorem Scene.renderPixel_eq_set [FloorRing K] (ops : FloatOps K) (sc : Scene K) (img : Image)
    (row col : Nat) :
    sc.renderPixel ops img row col = img.set row col (sc.pixelColour ops row col) := by
  unfold Scene.renderPixel Scene.pixelColour
  simp only
  generalize sc.findClosestObject (sc.camera_.generateRay
    (sc.imagePlane_.generatePixelPos col row)) FLT_MAX = r
  rcases r with ⟨_ | o, t⟩ <;> rfl

/-- The inner loop of `renderScene` over the columns `l` of one row: afterwards a pixel of
that row in one of those columns holds the colour computed for it, every other pixel is
unchanged. -/
theorem Scene.renderCols_data [FloorRing K] (ops : FloatOps K) (sc : Scene K) (row : Nat)
    (l : List Nat) :
    ∀ (img : Image) (r c : Nat),
      (l.foldl (fun img col => sc.renderPixel ops img row col) img).data r c =
        if r = row ∧ c ∈ l then sc.pixelColour ops r c else img.data r c := by
  induction l with
  | nil =>
    intro img r c
    simp
  | cons col rest ih =>
    intro img r c
    rw [List.foldl_cons, ih, Scene.renderPixel_eq_set]
    by_cases hr : r = row
    · subst hr
      by_cases hc : c = col
      · subst hc
        simp [Image.set]
      · by_cases hm : c ∈ rest
        · simp [hm]
        · simp [Image.set, hc, hm]
    · simp [Image.set, hr]

/-- The outer loop of `renderScene` over the rows `l`, with the columns `cols`: afterwards
a pixel in one of those rows and columns holds the colour computed for it, every other
pixel is unchanged. -/
theorem Scene.renderRows_data [FloorRing K] (ops : FloatOps K) (sc : Scene K) (cols : List Nat)
    (l : List Nat) :
    ∀ (img : Image) (r c : Nat),
      (l.foldl (fun img row => cols.foldl (fun img col => sc.renderPixel ops img row col) img)
        img).data r c =
        if r ∈ l ∧ c ∈ cols then sc.pixelColour ops r c else img.data r c := by
  induction l with
  | nil =>
    intro img r c
    simp
  | cons row rest ih =>
    intro img r c
    rw [List.foldl_cons, ih, Scene.renderCols_data]
    by_cases hr : r = row
    · subst hr
      by_cases hc : c ∈ cols
      · simp [hc]
      · simp [hc]
    · by_cases hm : r ∈ rest
      · by_cases hc : c ∈ cols
        · simp [hm, hc]
        · simp [hc]
      · simp [hr, hm]

/-- Every pixel of the raster holds, after `renderScene`, the colour computed for it. -/
theorem Scene.renderScene_data [FloorRing K] (ops : FloatOps K) (sc : Scene K) (row col : Nat)
    (hrow : row < sc.image_.rows) (hcol : col < sc.image_.cols) :
    (sc.renderScene ops).image_.data row col = sc.pixelColour ops row col := by
  unfold Scene.renderScene
  simp only
  rw [Scene.renderRows_data]
  simp [List.mem_range, hrow, hcol]

/-- A pixel whose primary ray no primitive qualifies on is computed as white. -/
theorem Scene.pixelColour_of_no_hit [FloorRing K] (ops : FloatOps K) (sc : Scene K)
    (row col : Nat)
    (hno : ∀ o ∈ sc.objects_, ¬ o.qualifies
      (sc.camera_.generateRay (sc.imagePlane_.generatePixelPos col row)) FLT_MAX) :
    sc.pixelColour ops row col = white := by
  obtain ⟨hcase, -, -⟩ := Scene.findClosestObjectLoop_spec
    (sc.camera_.generateRay (sc.imagePlane_.generatePixelPos col row)) sc.objects_ none FLT_MAX
  rcases hcase with ⟨heq, -⟩ | ⟨o, ho, -, hq⟩
  · unfold Scene.pixelColour Scene.findClosestObject
    simp only
    rw [heq]
  · exact absurd hq (hno o ho)

/-- C9: after `renderScene`, a pixel (row, col) of the raster on whose primary ray no
primitive reports a hit at a strictly positive distance below the initial bound `FLT_MAX`
is white; in particular, with no primitive in the scene every pixel of the raster is
white. -/
theorem Scene.renderScene_background [FloorRing K] (ops : FloatOps K) (sc : Scene K) :
    (∀ row col : Nat, row < sc.image_.rows → col < sc.image_.cols →
      (∀ o ∈ sc.objects_, ¬ (
        (o.hasIntersect (sc.camera_.generateRay (sc.imagePlane_.generatePixelPos col row))).1
          = true ∧
        0 < (o.hasIntersect (sc.camera_.generateRay (sc.imagePlane_.generatePixelPos col row))).2
          ∧
        (o.hasIntersect (sc.camera_.generateRay (sc.imagePlane_.generatePixelPos col row))).2
          < FLT_MAX)) →
      (sc.renderScene ops).image_.data row col = white) ∧
    (sc.objects_ = [] → ∀ row col : Nat, row < sc.image_.rows → col < sc.image_.cols →
      (sc.renderScene ops).image_.data row col = white) := by
  constructor
  · intro row col hrow hcol hno
    rw [Scene.renderScene_data ops sc row col hrow hcol]
    exact Scene.pixelColour_of_no_hit ops sc row col hno
  · intro hempty row col hrow hcol
    rw [Scene.renderScene_data ops sc row col hrow hcol]
    apply Scene.pixelColour_of_no_hit
    intro o ho
    rw [hempty] at ho
    exact absurd ho (List.not_mem_nil o)

/-- C9 (witness): the scene without primitives, with its 2 x 2 image that starts black:
every pixel of the raster is white after the render, and so is the pixel (1, 0) by the
first part. -/
theorem Scene.renderScene_background_witness :
    (demoScene ℚ [] []).objects_ = [] ∧
    (∀ row col : Nat, row < (demoScene ℚ [] []).image_.rows →
      col < (demoScene ℚ [] []).image_.cols →
      ((demoScene ℚ [] []).renderScene approxOps).image_.data row col = white) ∧
    ((demoScene ℚ [] []).renderScene approxOps).image_.data 1 0 = white :=
  ⟨rfl, (Scene.renderScene_background approxOps (demoScene ℚ [] [])).2 rfl,
    (Scene.renderScene_background approxOps (demoScene ℚ [] [])).1 1 0 (by decide) (by decide)
      (fun o ho => absurd ho (List.not_mem_nil o))⟩

/-! ## Phong shading -/

/-- The macro `MAX` computes the maximum. -/
theorem MAX_eq_max (a b : K) : MAX a b = max a b := by
  unfold MAX
  rcases lt_or_le a b with h | h
  · rw [if_pos h, max_eq_right h.le]
  · rw [if_neg (not_lt.mpr h), max_eq_left h]

/-- One pass of the loop over the lights: the normal is normalised and the accumulator
grows, per channel, by the contribution of the light computed with the normalised normal. -/
theorem Scene.phongStep_eq (ops : FloatOps K) (sc : Scene K) (ray : Ray K) (m : Material K)
    (intersection : Vec3 K) (st : Vec3 K × Vec3 K) (light : LightSource K) :
    sc.phongStep ops ray m intersection st light =
      (ops.normalize st.1,
        ⟨st.2.x + sc.lightContribution ops ray m intersection (ops.normalize st.1) 0 light,
         st.2.y + sc.lightContribution ops ray m intersection (ops.normalize st.1) 1 light,
         st.2.z + sc.lightContribution ops ray m intersection (ops.normalize st.1) 2 light⟩) := by
  unfold Scene.phongStep Scene.lightContribution Scene.lightTerms
  cases hsh : sc.hasShadow ⟨intersection, ops.normalize (light.computeLightVector intersection)⟩
    (ops.norm (light.computeLightVector intersection)) <;>
    simp [hsh, MAX_eq_max]

/-- The loop over the lights, from a state whose normal normalises to `n`: the accumulator
grows, per channel, by the sum of the contributions of the lights. -/
theorem Scene.phongLoop_eq (ops : FloatOps K) (sc : Scene K) (ray : Ray K) (m : Material K)
    (intersection n : Vec3 K) (hnn : ops.normalize n = n) (l : List (LightSource K)) :
    ∀ st : Vec3 K × Vec3 K, ops.normalize st.1 = n →
      (l.foldl (sc.phongStep ops ray m intersection) st).2 =
        ⟨st.2.x + (l.map (sc.lightContribution ops ray m intersection n 0)).sum,
         st.2.y + (l.map (sc.lightContribution ops ray m intersection n 1)).sum,
         st.2.z + (l.map (sc.lightContribution ops ray m intersection n 2)).sum⟩ := by
  induction l with
  | nil =>
    intro st _
    simp
  | cons light rest ih =>
    intro st hn
    rw [List.foldl_cons, Scene.phongStep_eq, ih _ (by rw [hn]; exact hnn), hn]
    simp only [List.map_cons, List.sum_cons, add_assoc]

/-- The Euclidean normalisation built on an exact square root leaves a normalised vector
unchanged. -/
theorem euclidOps_normalize_idem (sqrt : K → K) (pow : K → K → K)
    (hs : ∀ x, 0 ≤ x → 0 ≤ sqrt x ∧ sqrt x * sqrt x = x) (v : Vec3 K) :
    (euclidOps sqrt pow).normalize ((euclidOps sqrt pow).normalize v) =
      (euclidOps sqrt pow).normalize v := by
  have hvv : 0 ≤ v.dot v := by
    unfold Vec3.dot
    nlinarith [mul_self_nonneg v.x, mul_self_nonneg v.y, mul_self_nonneg v.z]
  obtain ⟨hs0, hss⟩ := hs _ hvv
  have hd : v.dot v = v.x * v.x + v.y * v.y + v.z * v.z := rfl
  by_cases h0 : sqrt (v.dot v) = 0
  · have h0' : sqrt (v.x * v.x + v.y * v.y + v.z * v.z) = 0 := by rw [← hd]; exact h0
    simp [euclidOps, Vec3.dot, h0']
  · have hone : sqrt 1 = 1 := by
      obtain ⟨h1, h2⟩ := hs 1 zero_le_one
      nlinarith
    have hdot : v.x / sqrt (v.dot v) * (v.x / sqrt (v.dot v))
        + v.y / sqrt (v.dot v) * (v.y / sqrt (v.dot v))
        + v.z / sqrt (v.dot v) * (v.z / sqrt (v.dot v)) = 1 := by
      have hsum : v.x / sqrt (v.dot v) * (v.x / sqrt (v.dot v))
          + v.y / sqrt (v.dot v) * (v.y / sqrt (v.dot v))
          + v.z / sqrt (v.dot v) * (v.z / sqrt (v.dot v))
          = (v.x * v.x + v.y * v.y + v.z * v.z) / (sqrt (v.dot v) * sqrt (v.dot v)) := by
        field_simp
      rw [hsum, ← hd, hss]
      exact div_self (by rw [← hss]; exact mul_ne_zero h0 h0)
    have hgoal : (euclidOps sqrt pow).normalize ((euclidOps sqrt pow).normalize v) =
        ⟨v.x / sqrt (v.dot v) / sqrt (v.x / sqrt (v.dot v) * (v.x / sqrt (v.dot v))
          + v.y / sqrt (v.dot v) * (v.y / sqrt (v.dot v))
          + v.z / sqrt (v.dot v) * (v.z / sqrt (v.dot v))),
         v.y / sqrt (v.dot v) / sqrt (v.x / sqrt (v.dot v) * (v.x / sqrt (v.dot v))
          + v.y / sqrt (v.dot v) * (v.y / sqrt (v.dot v))
          + v.z / sqrt (v.dot v) * (v.z / sqrt (v.dot v))),
         v.z / sqrt (v.dot v) / sqrt (v.x / sqrt (v.dot v) * (v.x / sqrt (v.dot v))
          + v.y / sqrt (v.dot v) * (v.y / sqrt (v.dot v))
          + v.z / sqrt (v.dot v) * (v.z / sqrt (v.dot v)))⟩ := rfl
    rw [hgoal, hdot, hone]
    simp [euclidOps]

/-- The characterisation of `hasIntersect` by the ray with its epsilon-band direction
components read as zero, for use in the lemmas below. -/
theorem BoundingBox.hasIntersect_iff_exists (b : BoundingBox K) (ray : Ray K)
    (hbox : ∀ i : Fin 3, b.min_.get i ≤ b.max_.get i) :
    b.hasIntersect ray = true ↔
      ∃ t, 0 ≤ t ∧ ∀ i : Fin 3,
        b.min_.get i ≤ ray.origin.get i + t * snapDirection (ray.direction.get i) ∧
        ray.origin.get i + t * snapDirection (ray.direction.get i) ≤ b.max_.get i := by
  unfold BoundingBox.hasIntersect
  rw [BoundingBox.hasIntersectLoop_iff b ray hbox [0, 1, 2] .negInf .posInf
    ⟨0, le_refl _, by simp [EFloat.lowerOK, EFloat.lt], by simp [EFloat.upperOK, EFloat.lt]⟩]
  constructor
  · rintro ⟨t, h0, -, -, hall⟩
    refine ⟨t, h0, fun i => hall i ?_⟩
    fin_cases i <;> simp
  · rintro ⟨t, h0, hall⟩
    exact ⟨t, h0, by simp [EFloat.lowerOK, EFloat.lt], by simp [EFloat.upperOK, EFloat.lt],
      fun i _ => hall i⟩

/-- A direction component that is zero or of magnitude at least 0.001 is the component the
slab test works with. -/
theorem snapDirection_eq_self (d : K) (h : d = 0 ∨ 1 / 1000 ≤ |d|) : snapDirection d = d := by
  unfold snapDirection
  rcases h with h | h
  · simp [h]
  · rw [if_neg (not_lt.mpr h)]

/-- C12: for a box with `min[i] ≤ max[i]` on every axis and a ray each of whose direction
components is exactly 0 or of magnitude at least 0.001, `hasIntersect` returns true exactly
when some `t ≥ 0` has `min[i] ≤ o[i] + t * d[i] ≤ max[i]` on all three axes. -/
theorem BoundingBox.hasIntersect_exact_outside_band (b : BoundingBox K) (ray : Ray K)
    (hbox : ∀ i : Fin 3, b.min_.get i ≤ b.max_.get i)
    (hdir : ∀ i : Fin 3, ray.direction.get i = 0 ∨ 1 / 1000 ≤ |ray.direction.get i|) :
    b.hasIntersect ray = true ↔
      ∃ t, 0 ≤ t ∧ ∀ i : Fin 3,
        b.min_.get i ≤ ray.origin.get i + t * ray.direction.get i ∧
        ray.origin.get i + t * ray.direction.get i ≤ b.max_.get i := by
  rw [BoundingBox.hasIntersect_iff_exists b ray hbox]
  constructor
  · rintro ⟨t, h0, hall⟩
    refine ⟨t, h0, fun i => ?_⟩
    have h := hall i
    rw [snapDirection_eq_self _ (hdir i)] at h
    exact h
  · rintro ⟨t, h0, hall⟩
    refine ⟨t, h0, fun i => ?_⟩
    rw [snapDirection_eq_self _ (hdir i)]
    exact hall i

/-- C12 (witness): the box (-1,-1,-1)..(1,1,1) and the ray from (0,0,-5) with direction
(1/512,0,1), whose components are 0 or at least 0.001 in magnitude. -/
theorem BoundingBox.hasIntersect_exact_outside_band_witness :
    (∀ i : Fin 3, unitBox.min_.get i ≤ unitBox.max_.get i) ∧
    (∀ i : Fin 3, (⟨1 / 512, 0, 1⟩ : Vec3 ℚ).get i = 0 ∨
      1 / 1000 ≤ |(⟨1 / 512, 0, 1⟩ : Vec3 ℚ).get i|) ∧
    (unitBox.hasIntersect ⟨⟨0, 0, -5⟩, ⟨1 / 512, 0, 1⟩⟩ = true ↔
      ∃ t : ℚ, 0 ≤ t ∧ ∀ i : Fin 3,
        unitBox.min_.get i ≤ (⟨0, 0, -5⟩ : Vec3 ℚ).get i
          + t * (⟨1 / 512, 0, 1⟩ : Vec3 ℚ).get i ∧
        (⟨0, 0, -5⟩ : Vec3 ℚ).get i
          + t * (⟨1 / 512, 0, 1⟩ : Vec3 ℚ).get i ≤ unitBox.max_.get i) :=
  ⟨by intro i; fin_cases i <;> norm_num [unitBox, Vec3.get],
   by intro i; fin_cases i <;> norm_num [Vec3.get, abs_of_pos],
   BoundingBox.hasIntersect_exact_outside_band unitBox ⟨⟨0, 0, -5⟩, ⟨1 / 512, 0, 1⟩⟩
    (by intro i; fin_cases i <;> norm_num [unitBox, Vec3.get])
    (by intro i; fin_cases i <;> norm_num [Vec3.get, abs_of_pos])⟩

/-- The loop of `hasIntersect` returns false from any running interval when one of the axes
still to visit is inside the epsilon band with the origin outside its slab. -/
theorem BoundingBox.hasIntersectLoop_of_parallel_outside (b : BoundingBox K) (ray : Ray K)
    (i : Fin 3) (hpar : |ray.direction.get i| < 1 / 1000)
    (hout : ray.origin.get i < b.min_.get i ∨ ray.origin.get i > b.max_.get i)
    (l : List (Fin 3)) :
    ∀ (tMin tMax : EFloat K), i ∈ l → b.hasIntersectLoop ray l tMin tMax = false := by
  induction l with
  | nil =>
    intro tMin tMax hi
    exact absurd hi (List.not_mem_nil i)
  | cons j rest ih =>
    intro tMin tMax hi
    rcases List.mem_cons.mp hi with rfl | hi'
    · simp only [BoundingBox.hasIntersectLoop, hpar, if_true, hout]
    · simp only [BoundingBox.hasIntersectLoop]
      split_ifs <;> first | rfl | exact ih _ _ hi'

/-- C13: when on some axis `i` the direction component has magnitude below 0.001 and the
origin coordinate is below `min[i]` or above `max[i]`, `hasIntersect` returns false,
whatever the box and the other two axes are. -/
theorem BoundingBox.hasIntersect_parallel_outside (b : BoundingBox K) (ray : Ray K) (i : Fin 3)
    (hpar : |ray.direction.get i| < 1 / 1000)
    (hout : ray.origin.get i < b.min_.get i ∨ ray.origin.get i > b.max_.get i) :
    b.hasIntersect ray = false := by
  unfold BoundingBox.hasIntersect
  apply BoundingBox.hasIntersectLoop_of_parallel_outside b ray i hpar hout
  fin_cases i <;> simp

/-- C13 (witness): the box (-1,-1,-1)..(1,1,1) and the ray from (0,0,3) with direction
(1,1,1/2048): the z component is inside the band and the origin is above the z slab. -/
theorem BoundingBox.hasIntersect_parallel_outside_witness :
    |(⟨1, 1, 1 / 2048⟩ : Vec3 ℚ).get 2| < 1 / 1000 ∧
    ((⟨0, 0, 3⟩ : Vec3 ℚ).get 2 < unitBox.min_.get 2 ∨
      (⟨0, 0, 3⟩ : Vec3 ℚ).get 2 > unitBox.max_.get 2) ∧
    unitBox.hasIntersect ⟨⟨0, 0, 3⟩, ⟨1, 1, 1 / 2048⟩⟩ = false :=
  ⟨by norm_num [Vec3.get, abs_of_pos], by norm_num [unitBox, Vec3.get],
   BoundingBox.hasIntersect_parallel_outside unitBox ⟨⟨0, 0, 3⟩, ⟨1, 1, 1 / 2048⟩⟩ 2
    (by norm_num [Vec3.get, abs_of_pos]) (by norm_num [unitBox, Vec3.get])⟩

/-- The traced loop returns the result of the loop of `hasIntersect`. -/
theorem BoundingBox.hasIntersectTraced_fst (b : BoundingBox K) (ray : Ray K)
    (l : List (Fin 3)) :
    ∀ (tMin tMax : EFloat K),
      (b.hasIntersectTraced ray l tMin tMax).1 = b.hasIntersectLoop ray l tMin tMax := by
  induction l with
  | nil =>
    intro tMin tMax
    rfl
  | cons i rest ih =>
    intro tMin tMax
    simp only [BoundingBox.hasIntersectTraced, BoundingBox.hasIntersectLoop]
    split_ifs <;> first | rfl | exact ih _ _

/-- Every divisor the traced loop records has magnitude at least 0.001. -/
theorem BoundingBox.hasIntersectTraced_divisors (b : BoundingBox K) (ray : Ray K)
    (l : List (Fin 3)) :
    ∀ (tMin tMax : EFloat K), ∀ d ∈ (b.hasIntersectTraced ray l tMin tMax).2,
      1 / 1000 ≤ |d| := by
  induction l with
  | nil =>
    intro tMin tMax d hd
    simp [BoundingBox.hasIntersectTraced] at hd
  | cons i rest ih =>
    intro tMin tMax d hd
    by_cases hpar : |ray.direction.get i| < 1 / 1000
    · by_cases hout : ray.origin.get i < b.min_.get i ∨ ray.origin.get i > b.max_.get i
      · simp only [BoundingBox.hasIntersectTraced, hpar, if_true, hout] at hd
        exact absurd hd (List.not_mem_nil d)
      · simp only [BoundingBox.hasIntersectTraced, hpar, if_true, hout, if_false] at hd
        exact ih _ _ d hd
    · have hown : ∀ x ∈ [ray.direction.get i, ray.direction.get i, ray.direction.get i,
          ray.direction.get i], 1 / 1000 ≤ |x| := by
        intro x hx
        simp only [List.mem_cons, List.mem_singleton, List.not_mem_nil, or_false, or_self] at hx
        rw [hx]
        exact not_lt.mp hpar
      simp only [BoundingBox.hasIntersectTraced, hpar, if_false] at hd
      split_ifs at hd <;>
        first
        | exact hown d hd
        | exact (List.mem_append.mp hd).elim (hown d) (ih _ _ d)

/-- C14: every division a run of `hasIntersect` performs has a divisor, the direction
component of the current axis, of magnitude at least 0.001; in particular no divisor is
zero.  The run is the traced loop, whose result is that of `hasIntersect`. -/
theorem BoundingBox.hasIntersect_divisors_guarded (b : BoundingBox K) (ray : Ray K) :
    (b.hasIntersectTraced ray [0, 1, 2] .negInf .posInf).1 = b.hasIntersect ray ∧
    ∀ d ∈ (b.hasIntersectTraced ray [0, 1, 2] .negInf .posInf).2, 1 / 1000 ≤ |d| ∧ d ≠ 0 := by
  refine ⟨BoundingBox.hasIntersectTraced_fst b ray _ _ _, fun d hd => ?_⟩
  have h := BoundingBox.hasIntersectTraced_divisors b ray _ _ _ d hd
  refine ⟨h, fun h0 => ?_⟩
  rw [h0, abs_zero] at h
  norm_num at h

/-- C15: for a box with `min[i] ≤ max[i]` on every axis and a ray whose origin lies in the
box, `hasIntersect` returns true whatever the direction is. -/
theorem BoundingBox.hasIntersect_of_origin_inside (b : BoundingBox K) (ray : Ray K)
    (hbox : ∀ i : Fin 3, b.min_.get i ≤ b.max_.get i)
    (hin : ∀ i : Fin 3, b.min_.get i ≤ ray.origin.get i ∧ ray.origin.get i ≤ b.max_.get i) :
    b.hasIntersect ray = true := by
  rw [BoundingBox.hasIntersect_iff_exists b ray hbox]
  refine ⟨0, le_refl _, fun i => ?_⟩
  simpa using hin i

/-- C15 (witness): the box (-1,-1,-1)..(1,1,1) and the ray from (1/2,-1,0) with direction
(1/2048,-3,0), which has one component inside the epsilon band. -/
theorem BoundingBox.hasIntersect_of_origin_inside_witness :
    (∀ i : Fin 3, unitBox.min_.get i ≤ unitBox.max_.get i) ∧
    (∀ i : Fin 3, unitBox.min_.get i ≤ (⟨1 / 2, -1, 0⟩ : Vec3 ℚ).get i ∧
      (⟨1 / 2, -1, 0⟩ : Vec3 ℚ).get i ≤ unitBox.max_.get i) ∧
    unitBox.hasIntersect ⟨⟨1 / 2, -1, 0⟩, ⟨1 / 2048, -3, 0⟩⟩ = true :=
  ⟨by intro i; fin_cases i <;> norm_num [unitBox, Vec3.get],
   by intro i; fin_cases i <;> norm_num [unitBox, Vec3.get],
   BoundingBox.hasIntersect_of_origin_inside unitBox ⟨⟨1 / 2, -1, 0⟩, ⟨1 / 2048, -3, 0⟩⟩
    (by intro i; fin_cases i <;> norm_num [unitBox, Vec3.get])
    (by intro i; fin_cases i <;> norm_num [unitBox, Vec3.get])⟩

/-! ## The nearest-hit search and the shadow test: order of the list, restriction -/

/-- The loop of `findClosestObject` from the null pointer, on two lists with the same
primitives in another order: the same final bound, and the null pointer for both or for
neither. -/
theorem Scene.findClosestObjectLoop_perm (ray : Ray K) (t : K) (l1 l2 : List (Object K))
    (hperm : l1.Perm l2) :
    (Scene.findClosestObjectLoop ray l1 none t).2 =
      (Scene.findClosestObjectLoop ray l2 none t).2 ∧
    ((Scene.findClosestObjectLoop ray l1 none t).1 = none ↔
      (Scene.findClosestObjectLoop ray l2 none t).1 = none) := by
  obtain ⟨hcase1, -, hmin1⟩ := Scene.findClosestObjectLoop_spec ray l1 none t
  obtain ⟨hcase2, -, hmin2⟩ := Scene.findClosestObjectLoop_spec ray l2 none t
  rcases hcase1 with ⟨heq1, hnone1⟩ | ⟨o1, ho1, heq1, hq1⟩
  · rcases hcase2 with ⟨heq2, -⟩ | ⟨o2, ho2, -, hq2⟩
    · rw [heq1, heq2]
      exact ⟨rfl, Iff.rfl⟩
    · exact absurd hq2 (hnone1 o2 (hperm.mem_iff.mpr ho2))
  · rcases hcase2 with ⟨-, hnone2⟩ | ⟨o2, ho2, heq2, hq2⟩
    · exact absurd hq1 (hnone2 o1 (hperm.mem_iff.mp ho1))
    · have h12 := hmin1 o2 (hperm.mem_iff.mpr ho2) hq2
      have h21 := hmin2 o1 (hperm.mem_iff.mp ho1) hq1
      rw [heq1] at h12 ⊢
      rw [heq2] at h21 ⊢
      refine ⟨le_antisymm h12 h21, ?_⟩
      simp

/-- C16: for a scene whose primitive list is replaced by a permutation of it,
`findClosestObject` leaves the same bound and returns the null pointer in exactly the same
cases. -/
theorem Scene.findClosestObject_perm (sc : Scene K) (ray : Ray K) (t0 : K)
    (objects : List (Object K)) (hperm : sc.objects_.Perm objects) :
    (Scene.findClosestObject { sc with objects_ := objects } ray t0).2 =
      (sc.findClosestObject ray t0).2 ∧
    ((Scene.findClosestObject { sc with objects_ := objects } ray t0).1 = none ↔
      (sc.findClosestObject ray t0).1 = none) := by
  obtain ⟨h1, h2⟩ := Scene.findClosestObjectLoop_perm ray t0 sc.objects_ objects hperm
  exact ⟨h1.symm, h2.symm⟩

/-- C16 (witness): the planes `z = 3` and `z = 2` in the two orders. -/
theorem Scene.findClosestObject_perm_witness :
    (demoScene ℚ [planeZ ℚ 3 ⟨1, 1, 1⟩, planeZ ℚ 2 ⟨2, 2, 2⟩] []).objects_.Perm
      [planeZ ℚ 2 ⟨2, 2, 2⟩, planeZ ℚ 3 ⟨1, 1, 1⟩] ∧
    (Scene.findClosestObject
      { demoScene ℚ [planeZ ℚ 3 ⟨1, 1, 1⟩, planeZ ℚ 2 ⟨2, 2, 2⟩] [] with
        objects_ := [planeZ ℚ 2 ⟨2, 2, 2⟩, planeZ ℚ 3 ⟨1, 1, 1⟩] } (zRay ℚ) 10).2 =
      ((demoScene ℚ [planeZ ℚ 3 ⟨1, 1, 1⟩, planeZ ℚ 2 ⟨2, 2, 2⟩] []).findClosestObject
        (zRay ℚ) 10).2 :=
  ⟨List.Perm.swap _ _ _,
   (Scene.findClosestObject_perm (demoScene ℚ [planeZ ℚ 3 ⟨1, 1, 1⟩, planeZ ℚ 2 ⟨2, 2, 2⟩] [])
    (zRay ℚ) 10 [planeZ ℚ 2 ⟨2, 2, 2⟩, planeZ ℚ 3 ⟨1, 1, 1⟩] (List.Perm.swap _ _ _)).1⟩

/-- The loop of `hasShadow` ends with true exactly when a primitive of the list reports a
hit at a distance strictly between 0.0001 and the light distance. -/
theorem Scene.hasShadowLoop_eq_true_iff (ray : Ray K) (lightDirLength : K)
    (l : List (Object K)) :
    Scene.hasShadowLoop ray lightDirLength l = true ↔
      ∃ o ∈ l, (o.hasIntersect ray).1 = true ∧ 1 / 10000 < (o.hasIntersect ray).2 ∧
        (o.hasIntersect ray).2 < lightDirLength := by
  induction l with
  | nil => simp [Scene.hasShadowLoop]
  | cons o rest ih =>
    by_cases hc : (o.hasIntersect ray).2 > 1 / 10000 ∧ (o.hasIntersect ray).2 < lightDirLength ∧
        (o.hasIntersect ray).1 = true
    · have hstep : Scene.hasShadowLoop ray lightDirLength (o :: rest) = true := by
        simp only [Scene.hasShadowLoop]
        exact if_pos hc
      rw [hstep]
      exact ⟨fun _ => ⟨o, List.mem_cons_self _ _, hc.2.2, hc.1, hc.2.1⟩, fun _ => rfl⟩
    · have hstep : Scene.hasShadowLoop ray lightDirLength (o :: rest) =
          Scene.hasShadowLoop ray lightDirLength rest := by
        simp only [Scene.hasShadowLoop]
        exact if_neg hc
      rw [hstep, ih]
      constructor
      · rintro ⟨x, hx, hx'⟩
        exact ⟨x, List.mem_cons_of_mem _ hx, hx'⟩
      · rintro ⟨x, hx, hx1, hx2, hx3⟩
        rcases List.mem_cons.mp hx with rfl | hx
        · exact absurd ⟨hx2, hx3, hx1⟩ hc
        · exact ⟨x, hx, hx1, hx2, hx3⟩

/-- C17: when `hasShadow(ray, L)` returns true, `findClosestObject` on the same ray with
initial bound `L` returns a primitive, not the null pointer, and leaves a bound strictly
between 0 and `L`. -/
theorem Scene.findClosestObject_of_hasShadow (sc : Scene K) (ray : Ray K) (L : K)
    (h : sc.hasShadow ray L = true) :
    (sc.findClosestObject ray L).1 ≠ none ∧ 0 < (sc.findClosestObject ray L).2 ∧
      (sc.findClosestObject ray L).2 < L := by
  unfold Scene.hasShadow at h
  obtain ⟨o, ho, hhit, hlo, hhi⟩ := (Scene.hasShadowLoop_eq_true_iff ray L sc.objects_).mp h
  have hpos : (0 : K) < (o.hasIntersect ray).2 := lt_trans (by norm_num) hlo
  unfold Scene.findClosestObject
  obtain ⟨hcase, -, -⟩ := Scene.findClosestObjectLoop_spec ray sc.objects_ none L
  rcases hcase with ⟨-, hnone⟩ | ⟨o', -, heq, hq⟩
  · exact absurd ⟨hhit, hpos, hhi⟩ (hnone o ho)
  · rw [heq]
    exact ⟨by simp, hq.2.1, hq.2.2⟩

/-- C17 (witness): the plane `z = 2` shadows a light at distance 5 along the z axis. -/
theorem Scene.findClosestObject_of_hasShadow_witness :
    (demoScene ℚ [planeZ ℚ 2 ⟨2, 2, 2⟩] []).hasShadow (zRay ℚ) 5 = true ∧
    ((demoScene ℚ [planeZ ℚ 2 ⟨2, 2, 2⟩] []).findClosestObject (zRay ℚ) 5).1 ≠ none ∧
    0 < ((demoScene ℚ [planeZ ℚ 2 ⟨2, 2, 2⟩] []).findClosestObject (zRay ℚ) 5).2 ∧
    ((demoScene ℚ [planeZ ℚ 2 ⟨2, 2, 2⟩] []).findClosestObject (zRay ℚ) 5).2 < 5 :=
  ⟨by norm_num [Scene.hasShadow, Scene.hasShadowLoop, demoScene, planeZ, zRay],
   Scene.findClosestObject_of_hasShadow (demoScene ℚ [planeZ ℚ 2 ⟨2, 2, 2⟩] []) (zRay ℚ) 5
    (by norm_num [Scene.hasShadow, Scene.hasShadowLoop, demoScene, planeZ, zRay])⟩

/-! ## Phong shading: duplicated lights -/

/-- The colour `phong` returns is made of the three channels of the shading formula, when
`normalize` leaves a normalised vector unchanged. -/
theorem Scene.phong_eq_channels [FloorRing K] (ops : FloatOps K) (sc : Scene K) (ray : Ray K)
    (closestObj : Object K) (normal : Vec3 K) (t : K)
    (hnorm : ∀ v, ops.normalize (ops.normalize v) = ops.normalize v) :
    sc.phong ops ray closestObj normal t =
      ⟨sc.phongFormula ops ray closestObj.getMaterial (ray.compute t) (ops.normalize normal) 0,
       sc.phongFormula ops ray closestObj.getMaterial (ray.compute t) (ops.normalize normal) 1,
       sc.phongFormula ops ray closestObj.getMaterial (ray.compute t) (ops.normalize normal)
        2⟩ := by
  unfold Scene.phong Scene.phongFormula
  simp only
  rw [Scene.phongLoop_eq ops sc ray closestObj.getMaterial (ray.compute t)
    (ops.normalize normal) (hnorm normal) sc.lights_ (normal, ⟨0, 0, 0⟩) rfl]
  simp [Vec3.get]

/-- The shading formula gives the same channel for the light list `ls ++ ls` as for `ls`:
the sum of the contributions doubles and so does the light count. -/
theorem Scene.phongFormula_duplicate_lights [FloorRing K] (ops : FloatOps K) (sc : Scene K)
    (ray : Ray K) (m : Material K) (intersection n : Vec3 K) (c : Fin 3) :
    Scene.phongFormula ops { sc with lights_ := sc.lights_ ++ sc.lights_ } ray m intersection n c
      = sc.phongFormula ops ray m intersection n c := by
  have hcontrib : Scene.lightContribution ops { sc with lights_ := sc.lights_ ++ sc.lights_ }
      ray m intersection n c = sc.lightContribution ops ray m intersection n c := rfl
  unfold Scene.phongFormula
  simp only
  rw [hcontrib, List.map_append, List.sum_append, List.length_append, Nat.cast_add,
    ← two_mul, ← two_mul, mul_div_mul_left _ _ (two_ne_zero : (2 : K) ≠ 0)]

/-- C18: for a non-empty light list `ls` and a `normalize` that leaves a normalised vector
unchanged, `phong` evaluated with the light list `ls ++ ls` returns the same colour as
with `ls`. -/
theorem Scene.phong_duplicate_lights [FloorRing K] (ops : FloatOps K) (sc : Scene K)
    (ray : Ray K) (closestObj : Object K) (normal : Vec3 K) (t : K)
    (_hlights : sc.lights_ ≠ [])
    (hnorm : ∀ v, ops.normalize (ops.normalize v) = ops.normalize v) :
    Scene.phong ops { sc with lights_ := sc.lights_ ++ sc.lights_ } ray closestObj normal t =
      sc.phong ops ray closestObj normal t := by
  rw [Scene.phong_eq_channels ops _ ray closestObj normal t hnorm,
    Scene.phong_eq_channels ops sc ray closestObj normal t hnorm,
    Scene.phongFormula_duplicate_lights, Scene.phongFormula_duplicate_lights,
    Scene.phongFormula_duplicate_lights]

/-- C18 (witness): over the reals, with the Euclidean norm and normalisation built on the
real square root, for the scene with one point light at (0,0,5), the ray from the origin
along the z axis, and the plane `z = 2` hit at distance 2 with normal (0,0,3). -/
theorem Scene.phong_duplicate_lights_witness :
    (demoScene ℝ [] [pointLight ℝ ⟨0, 0, 5⟩]).lights_ ≠ [] ∧
    (∀ v : Vec3 ℝ,
      (euclidOps Real.sqrt (fun x y => x ^ y)).normalize
        ((euclidOps Real.sqrt (fun x y => x ^ y)).normalize v) =
      (euclidOps Real.sqrt (fun x y => x ^ y)).normalize v) ∧
    Scene.phong (euclidOps Real.sqrt (fun x y => x ^ y))
      { demoScene ℝ [] [pointLight ℝ ⟨0, 0, 5⟩] with
        lights_ := (demoScene ℝ [] [pointLight ℝ ⟨0, 0, 5⟩]).lights_ ++
          (demoScene ℝ [] [pointLight ℝ ⟨0, 0, 5⟩]).lights_ }
      (zRay ℝ) (planeZ ℝ 2 ⟨10, 20, 30⟩) ⟨0, 0, 3⟩ 2 =
    (demoScene ℝ [] [pointLight ℝ ⟨0, 0, 5⟩]).phong (euclidOps Real.sqrt (fun x y => x ^ y))
      (zRay ℝ) (planeZ ℝ 2 ⟨10, 20, 30⟩) ⟨0, 0, 3⟩ 2 :=
  ⟨by simp [demoScene],
   euclidOps_normalize_idem Real.sqrt _
    (fun x hx => ⟨Real.sqrt_nonneg x, Real.mul_self_sqrt hx⟩),
   Scene.phong_duplicate_lights (euclidOps Real.sqrt (fun x y => x ^ y))
    (demoScene ℝ [] [pointLight ℝ ⟨0, 0, 5⟩]) (zRay ℝ) (planeZ ℝ 2 ⟨10, 20, 30⟩) ⟨0, 0, 3⟩ 2
    (by simp [demoScene])
    (euclidOps_normalize_idem Real.sqrt _
      (fun x hx => ⟨Real.sqrt_nonneg x, Real.mul_self_sqrt hx⟩))⟩

/-! ## The mesh loader -/

/-- The `while` loop leaves `triangles_` as it was. -/
theorem Mesh.parseStatements_triangles (l : List (ObjStatement K)) :
    ∀ m : Mesh K, (m.parseStatements l).2.triangles_ = m.triangles_ := by
  induction l with
  | nil =>
    intro m
    rfl
  | cons st rest ih =>
    intro m
    cases st with
    | v vx vy vz => simp only [Mesh.parseStatements]; rw [ih]
    | vt uvx uvy => simp only [Mesh.parseStatements]; rw [ih]
    | vn nx ny nz => simp only [Mesh.parseStatements]; rw [ih]
    | f line =>
      simp only [Mesh.parseStatements]
      split_ifs
      · rfl
      · rw [ih]
    | other => simp only [Mesh.parseStatements]; rw [ih]

/-- When the `while` loop reaches the end of the file, `faces_` has grown by the faces of
the `f` statements, in the order of the file. -/
theorem Mesh.parseStatements_faces (l : List (ObjStatement K)) :
    ∀ m : Mesh K, (m.parseStatements l).1 = true →
      (m.parseStatements l).2.faces_ = m.faces_ ++ l.filterMap ObjStatement.face? := by
  induction l with
  | nil =>
    intro m _
    simp [Mesh.parseStatements]
  | cons st rest ih =>
    intro m h
    cases st with
    | v vx vy vz =>
      simp only [Mesh.parseStatements] at h ⊢
      rw [ih _ h]
      simp [ObjStatement.face?]
    | vt uvx uvy =>
      simp only [Mesh.parseStatements] at h ⊢
      rw [ih _ h]
      simp [ObjStatement.face?]
    | vn nx ny nz =>
      simp only [Mesh.parseStatements] at h ⊢
      rw [ih _ h]
      simp [ObjStatement.face?]
    | f line =>
      simp only [Mesh.parseStatements] at h ⊢
      by_cases hbad : line.scan.2 ≠ 3 ∧ line.scan.2 ≠ 6 ∧ line.scan.2 ≠ 9
      · rw [if_pos hbad] at h
        exact absurd h (by simp)
      · rw [if_neg hbad] at h ⊢
        rw [ih _ h]
        simp [ObjStatement.face?]
    | other =>
      simp only [Mesh.parseStatements] at h ⊢
      rw [ih _ h]
      simp [ObjStatement.face?]

/-- The `while` loop reaches the end of the file when every face line is readable: the only
`return false` of the loop is the one for an unreadable face line. -/
theorem Mesh.parseStatements_of_readable (l : List (ObjStatement K)) :
    ∀ m : Mesh K, (∀ line, ObjStatement.f line ∈ l → line.readable) →
      (m.parseStatements l).1 = true := by
  induction l with
  | nil =>
    intro m _
    rfl
  | cons st rest ih =>
    intro m h
    have hrest : ∀ line, ObjStatement.f line ∈ rest → line.readable :=
      fun line hl => h line (List.mem_cons_of_mem _ hl)
    cases st with
    | v vx vy vz => simp only [Mesh.parseStatements]; exact ih _ hrest
    | vt uvx uvy => simp only [Mesh.parseStatements]; exact ih _ hrest
    | vn nx ny nz => simp only [Mesh.parseStatements]; exact ih _ hrest
    | f line =>
      have hr := h line (List.mem_cons_self _ _)
      unfold FaceLine.readable at hr
      simp only [Mesh.parseStatements]
      split_ifs with hbad
      · rcases hr with h3 | h6 | h9
        · exact absurd h3 hbad.1
        · exact absurd h6 hbad.2.1
        · exact absurd h9 hbad.2.2
      · exact ih _ hrest
    | other => simp only [Mesh.parseStatements]; exact ih _ hrest

/-- For an index from 1 up that is a value of `unsigned int`, the index minus one in
unsigned arithmetic is the index minus one. -/
theorem unsignedPred_eq (i : Nat) (h1 : 1 ≤ i) (h2 : i < 4294967296) :
    unsignedPred i = i - 1 := by
  unfold unsignedPred
  omega

omit [LinearOrderedField K] in
/-- The `for` loop over the faces, when it runs through, leaves the vertices and the faces
as they were. -/
theorem Mesh.buildTriangles_fields (faces : List Face) :
    ∀ m m' : Mesh K, m.buildTriangles faces = some m' →
      m'.vertices_ = m.vertices_ ∧ m'.faces_ = m.faces_ := by
  induction faces with
  | nil =>
    intro m m' h
    simp only [Mesh.buildTriangles, Option.some.injEq] at h
    subst h
    exact ⟨rfl, rfl⟩
  | cons face rest ih =>
    intro m m' h
    simp only [Mesh.buildTriangles] at h
    split at h
    · obtain ⟨hv, hf⟩ := ih _ m' h
      exact ⟨hv, hf⟩
    · exact absurd h (by simp)

omit [LinearOrderedField K] in
/-- The `for` loop over the faces, when it runs through: the vertices and the faces are
unchanged and `triangles_` has grown by one triangle per face, in order, each built from
the vertices its face names. -/
theorem Mesh.buildTriangles_names (faces : List Face) :
    ∀ m m' : Mesh K,
      (∀ face ∈ faces, ∀ j : Fin 3,
        1 ≤ face.vertexIndex.get j ∧ face.vertexIndex.get j < 4294967296) →
      m.buildTriangles faces = some m' →
      m'.vertices_ = m.vertices_ ∧ m'.faces_ = m.faces_ ∧
        ∃ T, m'.triangles_ = m.triangles_ ++ T ∧ List.Forall₂ (Face.names m.vertices_) faces T := by
  induction faces with
  | nil =>
    intro m m' _ h
    simp only [Mesh.buildTriangles, Option.some.injEq] at h
    subst h
    exact ⟨rfl, rfl, [], by simp, List.Forall₂.nil⟩
  | cons face rest ih =>
    intro m m' hidx h
    simp only [Mesh.buildTriangles] at h
    split at h
    · rename_i v1 v2 v3 h1 h2 h3
      obtain ⟨hv, hf, T, hT, hall⟩ := ih _ m'
        (fun face' hface' => hidx face' (List.mem_cons_of_mem _ hface')) h
      have hface := hidx face (List.mem_cons_self _ _)
      rw [unsignedPred_eq _ (hface 0).1 (hface 0).2] at h1
      rw [unsignedPred_eq _ (hface 1).1 (hface 1).2] at h2
      rw [unsignedPred_eq _ (hface 2).1 (hface 2).2] at h3
      refine ⟨hv, hf, ⟨v1, v2, v3⟩ :: T, ?_, List.Forall₂.cons ⟨h1, h2, h3⟩ hall⟩
      rw [hT]
      simp
    · exact absurd h (by simp)

omit [LinearOrderedField K] in
/-- The loop of `getObjects` appends one entry per triangle, in order, after the entries
the list holds. -/
theorem Mesh.getObjects_eq (toObject : Triangle K → Object K) (m : Mesh K)
    (objects : List (Object K)) :
    m.getObjects toObject objects = objects ++ m.triangles_.map toObject := by
  unfold Mesh.getObjects
  generalize m.triangles_ = l
  induction l generalizing objects with
  | nil => simp
  | cons triangle rest ih =>
    rw [List.foldl_cons, ih]
    simp

/-- C19: when `objectFileParser`, run from the empty mesh of a constructor, succeeds and
every vertex index of every face is a value of `unsigned int` in the range from 1 to the
number of vertices, then the faces are those of the `f` statements in the order of the
file, there is one triangle per face, in face order, the k-th triangle is built from the
stored vertices at the positions `vertexIndex[0] - 1`, `vertexIndex[1] - 1` and
`vertexIndex[2] - 1` of the k-th face, and `getObjects` appends one entry per triangle, in
that order, after the entries the output list holds. -/
theorem Mesh.objectFileParser_triangles (position : Vec3 K) (scale : K)
    (statements : List (ObjStatement K)) (m' : Mesh K)
    (hsucc : (Mesh.empty position scale).objectFileParser (some statements) = some (true, m'))
    (hword : ∀ face ∈ m'.faces_, ∀ j : Fin 3, face.vertexIndex.get j < 4294967296)
    (hrange : ∀ face ∈ m'.faces_, ∀ j : Fin 3,
      1 ≤ face.vertexIndex.get j ∧ face.vertexIndex.get j ≤ m'.vertices_.length) :
    m'.faces_ = statements.filterMap ObjStatement.face? ∧
    m'.triangles_.length = m'.faces_.length ∧
    List.Forall₂ (Face.names m'.vertices_) m'.faces_ m'.triangles_ ∧
    ∀ (toObject : Triangle K → Object K) (objects : List (Object K)),
      m'.getObjects toObject objects = objects ++ m'.triangles_.map toObject := by
  simp only [Mesh.objectFileParser] at hsucc
  by_cases hflag : ((Mesh.empty position scale).parseStatements statements).1 = false
  · rw [if_pos hflag] at hsucc
    simp at hsucc
  · rw [if_neg hflag] at hsucc
    have htrue : ((Mesh.empty position scale).parseStatements statements).1 = true := by
      simpa using hflag
    cases hbuild : ((Mesh.empty position scale).parseStatements statements).2.buildTriangles
        ((Mesh.empty position scale).parseStatements statements).2.faces_ with
    | none =>
      rw [hbuild] at hsucc
      simp at hsucc
    | some m'' =>
      rw [hbuild] at hsucc
      simp only [Option.some.injEq, Prod.mk.injEq, true_and] at hsucc
      subst hsucc
      have hfaces := Mesh.parseStatements_faces statements (Mesh.empty position scale) htrue
      have htri := Mesh.parseStatements_triangles statements (Mesh.empty position scale)
      obtain ⟨hv, hf⟩ := Mesh.buildTriangles_fields _ _ _ hbuild
      have hidx : ∀ face ∈ ((Mesh.empty position scale).parseStatements statements).2.faces_,
          ∀ j : Fin 3, 1 ≤ face.vertexIndex.get j ∧ face.vertexIndex.get j < 4294967296 := by
        intro face hface j
        rw [← hf] at hface
        exact ⟨(hrange face hface j).1, hword face hface j⟩
      obtain ⟨-, -, T, hT, hall⟩ := Mesh.buildTriangles_names _ _ _ hidx hbuild
      rw [htri] at hT
      have hT' : m''.triangles_ = T := by
        rw [hT]
        rfl
      rw [← hv, ← hf, ← hT'] at hall
      refine ⟨?_, hall.length_eq.symm, hall, fun toObject objects =>
        Mesh.getObjects_eq toObject m'' objects⟩
      rw [hf, hfaces]
      rfl

/-- C19 (witness): the parser succeeds on `demoObj` with the mesh `demoMesh`, whose face
indices are in the range from 1 to 3. -/
theorem Mesh.objectFileParser_triangles_witness :
    (Mesh.empty ⟨0, 0, 0⟩ 1).objectFileParser (some demoObj) = some (true, demoMesh) ∧
    (∀ face ∈ demoMesh.faces_, ∀ j : Fin 3, face.vertexIndex.get j < 4294967296) ∧
    (∀ face ∈ demoMesh.faces_, ∀ j : Fin 3,
      1 ≤ face.vertexIndex.get j ∧ face.vertexIndex.get j ≤ demoMesh.vertices_.length) ∧
    demoMesh.faces_ = demoObj.filterMap ObjStatement.face? ∧
    demoMesh.triangles_.length = demoMesh.faces_.length ∧
    List.Forall₂ (Face.names demoMesh.vertices_) demoMesh.faces_ demoMesh.triangles_ ∧
    ∀ (toObject : Triangle ℚ → Object ℚ) (objects : List (Object ℚ)),
      demoMesh.getObjects toObject objects = objects ++ demoMesh.triangles_.map toObject :=
  ⟨by norm_num [Mesh.objectFileParser, Mesh.parseStatements, Mesh.buildTriangles, Mesh.empty,
      demoObj, demoMesh, FaceLine.plain, FaceLine.scan, unsignedPred, Index3.get, Vec3.get],
   by
    intro face hface j
    simp only [demoMesh, List.mem_cons, List.mem_singleton, List.not_mem_nil, or_false] at hface
    rcases hface with rfl | rfl <;> fin_cases j <;> simp [Index3.get],
   by
    intro face hface j
    simp only [demoMesh, List.mem_cons, List.mem_singleton, List.not_mem_nil, or_false] at hface
    rcases hface with rfl | rfl <;> fin_cases j <;> simp [Index3.get, demoMesh],
   Mesh.objectFileParser_triangles ⟨0, 0, 0⟩ 1 demoObj demoMesh
    (by norm_num [Mesh.objectFileParser, Mesh.parseStatements, Mesh.buildTriangles, Mesh.empty,
      demoObj, demoMesh, FaceLine.plain, FaceLine.scan, unsignedPred, Index3.get, Vec3.get])
    (by
      intro face hface j
      simp only [demoMesh, List.mem_cons, List.mem_singleton, List.not_mem_nil, or_false]
        at hface
      rcases hface with rfl | rfl <;> fin_cases j <;> simp [Index3.get])
    (by
      intro face hface j
      simp only [demoMesh, List.mem_cons, List.mem_singleton, List.not_mem_nil, or_false]
        at hface
      rcases hface with rfl | rfl <;> fin_cases j <;> simp [Index3.get, demoMesh])⟩

/-- When the file opens and every face line is readable, `objectFileParser` does not
return false, whatever the vertex indices of the faces are: the parser has no test of an
index against the number of vertices. -/
theorem Mesh.objectFileParser_no_range_check (m : Mesh K) (statements : List (ObjStatement K))
    (hread : ∀ line, ObjStatement.f line ∈ statements → line.readable) (m' : Mesh K) :
    m.objectFileParser (some statements) ≠ some (false, m') := by
  have htrue := Mesh.parseStatements_of_readable statements m hread
  simp only [Mesh.objectFileParser, htrue, Bool.true_eq_false, if_false]
  cases (m.parseStatements statements).2.buildTriangles
    (m.parseStatements statements).2.faces_ <;> simp

/-- C11 (the code at the failing input): on the input of one vertex and the face `1 2 3`,
whose indices 2 and 3 exceed the number of vertices, the `while` loop of the parser ends
without `return false` and stores the face, and the run of `objectFileParser` then reads
`vertices_` outside its bounds instead of reporting failure. -/
theorem Mesh.objectFileParser_out_of_range :
    ((Mesh.empty ⟨0, 0, 0⟩ 1).parseStatements shortObj).1 = true ∧
    ((Mesh.empty ⟨0, 0, 0⟩ 1).parseStatements shortObj).2.vertices_.length = 1 ∧
    ((Mesh.empty ⟨0, 0, 0⟩ 1).parseStatements shortObj).2.faces_ =
      [⟨⟨1, 2, 3⟩, none, none⟩] ∧
    (Mesh.empty ⟨0, 0, 0⟩ 1).objectFileParser (some shortObj) = none ∧
    ∀ m' : Mesh ℚ,
      (Mesh.empty ⟨0, 0, 0⟩ 1).objectFileParser (some shortObj) ≠ some (false, m') := by
  have hnone : (Mesh.empty (⟨0, 0, 0⟩ : Vec3 ℚ) 1).objectFileParser (some shortObj) = none := by
    norm_num [Mesh.objectFileParser, Mesh.parseStatements, Mesh.buildTriangles, Mesh.empty,
      shortObj, FaceLine.plain, FaceLine.scan, unsignedPred, Index3.get, Vec3.get]
  refine ⟨?_, ?_, ?_, hnone, ?_⟩
  · norm_num [Mesh.parseStatements, Mesh.empty, shortObj, FaceLine.plain, FaceLine.scan]
  · norm_num [Mesh.parseStatements, Mesh.empty, shortObj, FaceLine.plain, FaceLine.scan]
  · norm_num [Mesh.parseStatements, Mesh.empty, shortObj, FaceLine.plain, FaceLine.scan]
  · intro m' h
    rw [hnone] at h
    cases h

end raytracer
